import Mathlib

/-!
Verification of the dygraph-to-static AST transformer
(`python/paddle/fluid/dygraph/dygraph_to_static/ast_transformer.py`).

The development shallowly embeds the transformer over a small statement and
expression language mirroring the gast constructs the source manipulates.
External collaborators that are not part of the given sources
(`ast_utils.py`, `utils.py`, `static_analysis.py`, `unique_name`,
`loop_transformer.py`) are modelled from the specification; each such
definition carries a doc comment starting with "Modelled from the spec:".
Everything else is translated directly from the source file.
-/

/-- Modelled from the spec: the value-categories inferred by the external
static analyzer (`NodeVarType` of `static_analysis.py`, which is not part of
the given sources): host numeric array, graph tensor, graph-call-result and
unknown. Only the members the transformer reads are modelled. -/
inductive NodeVarType where
  | NUMPY_NDARRAY
  | TENSOR
  | PADDLE_RETURN_TYPES
  | UNKNOWN
  deriving DecidableEq, Repr

/-- Expressions of the embedded language, mirroring the gast nodes the
transformer inspects: names, numeric constants, attribute accesses,
subscripts, tuples and calls (with positional and keyword arguments; a
keyword with argument `none` models `**kwargs`). -/
inductive Expr where
  | name (id : String)
  | num (n : Nat)
  | attribute (value : Expr) (attr : String)
  | subscript (value : Expr) (index : Expr)
  | tupleE (elts : List Expr)
  | call (func : Expr) (args : List Expr) (keywords : List (Option String × Expr))
  deriving Repr

/-- Statements of the embedded language: assignments (the source only ever
reads `targets[0]`, so a single target is carried), expression statements,
conditionals, function definitions, returns and `pass`. -/
inductive Stmt where
  | assign (target : Expr) (value : Expr)
  | exprStmt (value : Expr)
  | ifStmt (test : Expr) (body : List Stmt) (orelse : List Stmt)
  | funcDef (name : String) (args : List String) (decorators : List Expr) (body : List Stmt)
  | ret (value : Expr)
  | pass
  deriving Repr

mutual

def Expr.beq : Expr → Expr → Bool
  | .name a, .name b => a == b
  | .num a, .num b => a == b
  | .attribute v a, .attribute w b => Expr.beq v w && a == b
  | .subscript v i, .subscript w j => Expr.beq v w && Expr.beq i j
  | .tupleE es, .tupleE fs => Expr.beqList es fs
  | .call f a k, .call g b l => Expr.beq f g && Expr.beqList a b && Expr.beqKws k l
  | _, _ => false

def Expr.beqList : List Expr → List Expr → Bool
  | [], [] => true
  | e :: es, f :: fs => Expr.beq e f && Expr.beqList es fs
  | _, _ => false

def Expr.beqKws : List (Option String × Expr) → List (Option String × Expr) → Bool
  | [], [] => true
  | (a, v) :: t, (b, w) :: u => a == b && Expr.beq v w && Expr.beqKws t u
  | _, _ => false

end

mutual

theorem Expr.beq_iff : ∀ a b : Expr, Expr.beq a b = true ↔ a = b
  | .name _, .name _ => by simp [Expr.beq]
  | .num _, .num _ => by simp [Expr.beq]
  | .attribute v _, .attribute w _ => by simp [Expr.beq, Expr.beq_iff v w]
  | .subscript v i, .subscript w j => by simp [Expr.beq, Expr.beq_iff v w, Expr.beq_iff i j]
  | .tupleE es, .tupleE fs => by simp [Expr.beq, Expr.beqList_iff es fs]
  | .call f a k, .call g b l => by
      simp [Expr.beq, Expr.beq_iff f g, Expr.beqList_iff a b, Expr.beqKws_iff k l, and_assoc]
  | .name _, .num _ => by simp [Expr.beq]
  | .name _, .attribute _ _ => by simp [Expr.beq]
  | .name _, .subscript _ _ => by simp [Expr.beq]
  | .name _, .tupleE _ => by simp [Expr.beq]
  | .name _, .call _ _ _ => by simp [Expr.beq]
  | .num _, .name _ => by simp [Expr.beq]
  | .num _, .attribute _ _ => by simp [Expr.beq]
  | .num _, .subscript _ _ => by simp [Expr.beq]
  | .num _, .tupleE _ => by simp [Expr.beq]
  | .num _, .call _ _ _ => by simp [Expr.beq]
  | .attribute _ _, .name _ => by simp [Expr.beq]
  | .attribute _ _, .num _ => by simp [Expr.beq]
  | .attribute _ _, .subscript _ _ => by simp [Expr.beq]
  | .attribute _ _, .tupleE _ => by simp [Expr.beq]
  | .attribute _ _, .call _ _ _ => by simp [Expr.beq]
  | .subscript _ _, .name _ => by simp [Expr.beq]
  | .subscript _ _, .num _ => by simp [Expr.beq]
  | .subscript _ _, .attribute _ _ => by simp [Expr.beq]
  | .subscript _ _, .tupleE _ => by simp [Expr.beq]
  | .subscript _ _, .call _ _ _ => by simp [Expr.beq]
  | .tupleE _, .name _ => by simp [Expr.beq]
  | .tupleE _, .num _ => by simp [Expr.beq]
  | .tupleE _, .attribute _ _ => by simp [Expr.beq]
  | .tupleE _, .subscript _ _ => by simp [Expr.beq]
  | .tupleE _, .call _ _ _ => by simp [Expr.beq]
  | .call _ _ _, .name _ => by simp [Expr.beq]
  | .call _ _ _, .num _ => by simp [Expr.beq]
  | .call _ _ _, .attribute _ _ => by simp [Expr.beq]
  | .call _ _ _, .subscript _ _ => by simp [Expr.beq]
  | .call _ _ _, .tupleE _ => by simp [Expr.beq]

theorem Expr.beqList_iff : ∀ a b : List Expr, Expr.beqList a b = true ↔ a = b
  | [], [] => by simp [Expr.beqList]
  | e :: es, f :: fs => by simp [Expr.beqList, Expr.beq_iff e f, Expr.beqList_iff es fs]
  | [], _ :: _ => by simp [Expr.beqList]
  | _ :: _, [] => by simp [Expr.beqList]

theorem Expr.beqKws_iff : ∀ a b : List (Option String × Expr), Expr.beqKws a b = true ↔ a = b
  | [], [] => by simp [Expr.beqKws]
  | (a, v) :: t, (b, w) :: u => by
      simp [Expr.beqKws, Expr.beq_iff v w, Expr.beqKws_iff t u, and_assoc, Prod.ext_iff]
  | [], _ :: _ => by simp [Expr.beqKws]
  | _ :: _, [] => by simp [Expr.beqKws]

end

instance : DecidableEq Expr := fun a b =>
  decidable_of_iff (Expr.beq a b = true) (Expr.beq_iff a b)

mutual

def Stmt.beq : Stmt → Stmt → Bool
  | .assign t v, .assign u w => t == u && v == w
  | .exprStmt v, .exprStmt w => v == w
  | .ifStmt t b o, .ifStmt u c p => t == u && Stmt.beqList b c && Stmt.beqList o p
  | .funcDef n a d b, .funcDef m e f c => n == m && a == e && d == f && Stmt.beqList b c
  | .ret v, .ret w => v == w
  | .pass, .pass => true
  | _, _ => false

def Stmt.beqList : List Stmt → List Stmt → Bool
  | [], [] => true
  | s :: ss, t :: ts => Stmt.beq s t && Stmt.beqList ss ts
  | _, _ => false

end

mutual

theorem Stmt.beq_eq_true_iff : ∀ a b : Stmt, Stmt.beq a b = true ↔ a = b
  | .assign _ _, .assign _ _ => by simp [Stmt.beq]
  | .exprStmt _, .exprStmt _ => by simp [Stmt.beq]
  | .ifStmt t b o, .ifStmt u c p => by
      simp [Stmt.beq, Stmt.beqList_eq_true_iff b c, Stmt.beqList_eq_true_iff o p, and_assoc]
  | .funcDef n a d b, .funcDef m e f c => by
      simp [Stmt.beq, Stmt.beqList_eq_true_iff b c, and_assoc]
  | .ret _, .ret _ => by simp [Stmt.beq]
  | .pass, .pass => by simp [Stmt.beq]
  | .assign _ _, .exprStmt _ => by simp [Stmt.beq]
  | .assign _ _, .ifStmt _ _ _ => by simp [Stmt.beq]
  | .assign _ _, .funcDef _ _ _ _ => by simp [Stmt.beq]
  | .assign _ _, .ret _ => by simp [Stmt.beq]
  | .assign _ _, .pass => by simp [Stmt.beq]
  | .exprStmt _, .assign _ _ => by simp [Stmt.beq]
  | .exprStmt _, .ifStmt _ _ _ => by simp [Stmt.beq]
  | .exprStmt _, .funcDef _ _ _ _ => by simp [Stmt.beq]
  | .exprStmt _, .ret _ => by simp [Stmt.beq]
  | .exprStmt _, .pass => by simp [Stmt.beq]
  | .ifStmt _ _ _, .assign _ _ => by simp [Stmt.beq]
  | .ifStmt _ _ _, .exprStmt _ => by simp [Stmt.beq]
  | .ifStmt _ _ _, .funcDef _ _ _ _ => by simp [Stmt.beq]
  | .ifStmt _ _ _, .ret _ => by simp [Stmt.beq]
  | .ifStmt _ _ _, .pass => by simp [Stmt.beq]
  | .funcDef _ _ _ _, .assign _ _ => by simp [Stmt.beq]
  | .funcDef _ _ _ _, .exprStmt _ => by simp [Stmt.beq]
  | .funcDef _ _ _ _, .ifStmt _ _ _ => by simp [Stmt.beq]
  | .funcDef _ _ _ _, .ret _ => by simp [Stmt.beq]
  | .funcDef _ _ _ _, .pass => by simp [Stmt.beq]
  | .ret _, .assign _ _ => by simp [Stmt.beq]
  | .ret _, .exprStmt _ => by simp [Stmt.beq]
  | .ret _, .ifStmt _ _ _ => by simp [Stmt.beq]
  | .ret _, .funcDef _ _ _ _ => by simp [Stmt.beq]
  | .ret _, .pass => by simp [Stmt.beq]
  | .pass, .assign _ _ => by simp [Stmt.beq]
  | .pass, .exprStmt _ => by simp [Stmt.beq]
  | .pass, .ifStmt _ _ _ => by simp [Stmt.beq]
  | .pass, .funcDef _ _ _ _ => by simp [Stmt.beq]
  | .pass, .ret _ => by simp [Stmt.beq]

theorem Stmt.beqList_eq_true_iff : ∀ a b : List Stmt, Stmt.beqList a b = true ↔ a = b
  | [], [] => by simp [Stmt.beqList]
  | s :: ss, t :: ts => by simp [Stmt.beqList, Stmt.beq_eq_true_iff s t, Stmt.beqList_eq_true_iff ss ts]
  | [], _ :: _ => by simp [Stmt.beqList]
  | _ :: _, [] => by simp [Stmt.beqList]

end

instance : DecidableEq Stmt := fun a b =>
  decidable_of_iff (Stmt.beq a b = true) (Stmt.beq_eq_true_iff a b)

mutual

/-- Renders an expression back to text; stands in for `astor.to_source`, which
the source uses to build string keys (`func_name`, `target_str`). Both sides
of every key comparison in the source go through the same renderer, so only
consistency matters, not the exact astor surface syntax. -/
def render : Expr → String
  | .name id => id
  | .num n => Nat.repr n
  | .attribute v a => render v ++ "." ++ a
  | .subscript v i => render v ++ "[" ++ render i ++ "]"
  | .tupleE es => "(" ++ renderList es ++ ")"
  | .call f args kws => render f ++ "(" ++ renderList args ++ renderKws kws ++ ")"

def renderList : List Expr → String
  | [] => ""
  | [e] => render e
  | e :: es => render e ++ "," ++ renderList es

def renderKws : List (Option String × Expr) → String
  | [] => ""
  | (some a, v) :: t => "," ++ a ++ "=" ++ render v ++ renderKws t
  | (none, v) :: t => ",**" ++ render v ++ renderKws t

end

/-- Whether `pre` is a prefix of `s`, over the character lists (the character
lists make the test kernel-computable). -/
def strStartsWith (s pre : String) : Bool := pre.data.isPrefixOf s.data

/-- Modelled from the spec: the API-classifier predicate "is this call node a
graph-framework call" (`utils.is_paddle_api`, not part of the given sources).
A call is a graph-framework call when its callee renders to a dotted path in
the graph-building namespace. -/
def is_paddle_api : Expr → Bool
  | .call f _ _ => strStartsWith (render f) "fluid.layers."
  | _ => false

/-- Modelled from the spec: the API-classifier predicate "is this call node a
dynamic-execution-only call" (`utils.is_dygraph_api`, not part of the given
sources): the callee renders to a dotted path in the dynamic-execution
namespace. -/
def is_dygraph_api : Expr → Bool
  | .call f _ _ => strStartsWith (render f) "fluid.dygraph."
  | _ => false

/-- Modelled from the spec: the API-classifier predicate "does this call
construct a tensor from a host value" (`utils.is_to_variable`, not part of
the given sources): the callee is the tensor-construction entry point of the
dynamic-execution namespace. -/
def is_to_variable : Expr → Bool
  | .call f _ _ => render f == "fluid.dygraph.to_variable"
  | _ => false

/-- Modelled from the spec: the builder of the symbolic shape accessor
(`ast_utils.create_api_shape_node`, not part of the given sources). Given a
shape attribute access, it returns the graph-framework shape call applied to
the attribute receiver. -/
def create_api_shape_node : Expr → Expr
  | .attribute v _ =>
      .call (.attribute (.attribute (.name "fluid") "layers") "shape") [v] []
  | e => e

/-- Embeds `BasicApiTransformer._used_by_paddle_api`. The source looks the
node up in the node-to-wrapper map and then walks wrapper parents upward; the
embedding receives the result of that lookup as an optional ancestor chain
(innermost ancestor first), `none` when the node has no map entry. Statements
above the outermost expression are never call nodes, so the chain only needs
the expression ancestors. -/
def used_by_paddle_api (isApi : Expr → Bool) : Option (List Expr) → Bool
  | none => false
  | some chain => usedChainWalk isApi chain
where
  usedChainWalk (isApi : Expr → Bool) : List Expr → Bool
    | [] => false
    | p :: rest =>
        match p with
        | .call f a k => isApi (.call f a k)
        | _ => usedChainWalk isApi rest

/-- Embeds `BasicApiTransformer.is_tensor_shape`. `nts` is the
name-to-tensor-shape map and `svt` the scope-variable-type environment
(`scope_var_type_dict`); both dictionaries are association lists whose lookup
takes the most recent binding, matching dict overwrite-on-assignment. The
source asserts its argument is an attribute node; only attribute nodes reach
this function. -/
def is_tensor_shape (nts : List (String × Expr)) (svt : List (String × List NodeVarType)) :
    Expr → Bool
  | .attribute value attr =>
      if attr ≠ "shape" then false
      else
        match value with
        | .name valueId =>
            if (nts.lookup valueId).isSome then true
            else
              match svt.lookup valueId with
              | none => false
              | some varTypeSet =>
                  if varTypeSet.contains .NUMPY_NDARRAY then false
                  else if ¬ varTypeSet.contains .TENSOR ∧
                      ¬ varTypeSet.contains .PADDLE_RETURN_TYPES then false
                  else true
        | _ => false
  | _ => false

/-- Whether an expression is a call node, as tested by the ancestor walk of
`_used_by_paddle_api`. -/
def isCallNode : Expr → Bool
  | .call _ _ _ => true
  | _ => false

mutual

/-- Modelled from the spec: the names assigned in a branch, collected by the
branch-extraction utility for the merged return-name signature. -/
def assignedNamesStmt : Stmt → List String
  | .assign (.name id) _ => [id]
  | .assign _ _ => []
  | .exprStmt _ => []
  | .ifStmt _ b o => assignedNamesList b ++ assignedNamesList o
  | .funcDef _ _ _ _ => []
  | .ret _ => []
  | .pass => []

def assignedNamesList : List Stmt → List String
  | [] => []
  | s :: rest => assignedNamesStmt s ++ assignedNamesList rest

end

/-- Modelled from the spec: the branch-extraction utility
(`ast_utils.transform_if_else`, not part of the given sources). It synthesizes
two fresh zero-argument function definitions whose bodies are the two branch
statement lists, with collision-free names drawn from a counter, and returns
them together with the union of the names assigned in either branch. -/
def transform_if_else (counter : Nat) (body orelse : List Stmt) :
    Stmt × Stmt × List String :=
  (.funcDef ("true_fn_" ++ Nat.repr counter) [] [] body,
   .funcDef ("false_fn_" ++ Nat.repr counter) [] [] orelse,
   (assignedNamesList body ++ assignedNamesList orelse).eraseDups)

/-- Name of a function-definition statement. -/
def stmtDefName : Stmt → String
  | .funcDef n _ _ _ => n
  | _ => ""

/-- Modelled from the spec: the branch-selection node builder
(`ast_utils.create_cond_node`, not part of the given sources). It builds the
statement unpacking the merged return names from
`fluid.layers.cond(pred, true_fn, false_fn)`, or a bare expression statement
when there are no return names. -/
def create_cond_node (names : List String) (pred : Expr) (tf ff : Stmt) : Stmt :=
  let condCall : Expr :=
    .call (.attribute (.attribute (.name "fluid") "layers") "cond")
      [pred, .name (stmtDefName tf), .name (stmtDefName ff)] []
  match names with
  | [] => .exprStmt condCall
  | [n] => .assign (.name n) condCall
  | ns => .assign (.tupleE (ns.map Expr.name)) condCall

/-- State of the control-flow transformer: the fresh-name counter used by the
branch extraction, and the pending-insertion map `new_func_nodes` from each
created branch-selection node to its two extracted function definitions. -/
structure IfeState where
  counter : Nat
  newFuncNodes : List (Stmt × Stmt × Stmt)
  deriving Repr, DecidableEq

mutual

/-- Embeds the expression traversal of `IfElseTransformer`: `visit_Call`
replaces a call of a `numpy` attribute accessor by the (unvisited) accessor
receiver and never visits the children of any other call; every other
expression node is visited generically. -/
def ifeVisitExpr : Expr → Expr
  | .name id => .name id
  | .num n => .num n
  | .attribute v a => .attribute (ifeVisitExpr v) a
  | .subscript v i => .subscript (ifeVisitExpr v) (ifeVisitExpr i)
  | .tupleE es => .tupleE (ifeVisitExprList es)
  | .call f args kws =>
      match f with
      | .attribute v attr => if attr = "numpy" then v else .call f args kws
      | _ => .call f args kws

def ifeVisitExprList : List Expr → List Expr
  | [] => []
  | e :: es => ifeVisitExpr e :: ifeVisitExprList es

end

mutual

/-- Embeds `IfElseTransformer.visit_If` together with the generic statement
traversal of the transformer. For an `if`, decidability of the test is read
before the children are visited (generic visit in field order: test, body,
orelse); an undecidable `if` is then replaced by the branch-selection node,
which is recorded in the pending-insertion map together with the two
extracted function definitions. -/
def ifeVisitStmt (cfg : Expr → Bool) : Stmt → IfeState → Stmt × IfeState
  | .ifStmt test body orelse, st =>
      let needTransform := cfg test
      let test2 := ifeVisitExpr test
      let (body2, st1) := ifeVisitStmts cfg body st
      let (orelse2, st2) := ifeVisitStmts cfg orelse st1
      if needTransform then
        let (tf, ff, names) := transform_if_else st2.counter body2 orelse2
        let newNode := create_cond_node names test2 tf ff
        (newNode,
          { counter := st2.counter + 1,
            newFuncNodes := st2.newFuncNodes ++ [(newNode, tf, ff)] })
      else (.ifStmt test2 body2 orelse2, st2)
  | .assign target value, st =>
      (.assign (ifeVisitExpr target) (ifeVisitExpr value), st)
  | .exprStmt value, st => (.exprStmt (ifeVisitExpr value), st)
  | .funcDef n args decs body, st =>
      let (body2, st1) := ifeVisitStmts cfg body st
      (.funcDef n args (ifeVisitExprList decs) body2, st1)
  | .ret v, st => (.ret (ifeVisitExpr v), st)
  | .pass, st => (.pass, st)

def ifeVisitStmts (cfg : Expr → Bool) : List Stmt → IfeState → List Stmt × IfeState
  | [], st => ([], st)
  | s :: rest, st =>
      let (s2, st1) := ifeVisitStmt cfg s st
      let (rest2, st2) := ifeVisitStmts cfg rest st1
      (s2 :: rest2, st2)

end

mutual

/-- Embeds `IfElseTransformer._insert_func_nodes`: a backwards sweep over each
statement sequence that, on meeting a recorded branch-selection node, splices
the two extracted function definitions immediately before it (then-function
first) and recurses into the just-inserted definitions; any other child is
recursed into along its `body` attribute only — exactly as the source, which
tests `hasattr(parent_node, 'body')` and iterates `parent_node.body`, never a
`orelse` sequence. The pending map is keyed on node identity in the source;
created branch-selection nodes carry fresh function names, so structural
equality is used here. `fuel` bounds the recursion depth; the entry point
passes a bound that the sweep cannot exhaust. -/
def sweepStmts : Nat → List (Stmt × Stmt × Stmt) → List Stmt →
    List Stmt × List (Stmt × Stmt × Stmt)
  | 0, m, l => (l, m)
  | _ + 1, m, [] => ([], m)
  | fuel + 1, m, x :: rest =>
      let (rest2, m1) := sweepStmts fuel m rest
      match m1.lookup x with
      | some (tf, ff) =>
          let m2 := m1.eraseP (fun e => e.1 == x)
          let (ff2, m3) := sweepInto fuel m2 ff
          let (tf2, m4) := sweepInto fuel m3 tf
          (tf2 :: ff2 :: x :: rest2, m4)
      | none =>
          let (x2, m2) := sweepInto fuel m1 x
          (x2 :: rest2, m2)

def sweepInto : Nat → List (Stmt × Stmt × Stmt) → Stmt →
    Stmt × List (Stmt × Stmt × Stmt)
  | 0, m, s => (s, m)
  | fuel + 1, m, .funcDef n a d b =>
      let (b2, m2) := sweepStmts fuel m b
      (.funcDef n a d b2, m2)
  | fuel + 1, m, .ifStmt t b o =>
      let (b2, m2) := sweepStmts fuel m b
      (.ifStmt t b2 o, m2)
  | _ + 1, m, s => (s, m)

end

mutual

/-- Size of a statement, used to bound the insertion sweep. -/
def stmtSize : Stmt → Nat
  | .assign _ _ => 1
  | .exprStmt _ => 1
  | .ifStmt _ b o => 1 + stmtsSize b + stmtsSize o
  | .funcDef _ _ _ b => 1 + stmtsSize b
  | .ret _ => 1
  | .pass => 1

def stmtsSize : List Stmt → Nat
  | [] => 1
  | s :: rest => 1 + stmtSize s + stmtsSize rest

end

/-- Combined size of the pending function definitions. -/
def pendingSize : List (Stmt × Stmt × Stmt) → Nat
  | [] => 0
  | (_, tf, ff) :: rest => stmtSize tf + stmtSize ff + pendingSize rest

/-- Embeds `IfElseTransformer.transform`: the main visit over the module body
followed by `after_visit`, the insertion sweep. Returns the transformed tree
together with the remainder of the pending-insertion map (`new_func_nodes`
entries the sweep never consumed). -/
def ifeTransform (cfg : Expr → Bool) (prog : List Stmt) :
    List Stmt × List (Stmt × Stmt × Stmt) :=
  let (prog2, st) := ifeVisitStmts cfg prog ⟨0, []⟩
  sweepStmts (stmtsSize prog2 + pendingSize st.newFuncNodes + 1)
    st.newFuncNodes prog2

mutual

/-- No call of a `numpy` attribute accessor occurs anywhere in the
expression. -/
def noNumpyE : Expr → Bool
  | .name _ => true
  | .num _ => true
  | .attribute v _ => noNumpyE v
  | .subscript v i => noNumpyE v && noNumpyE i
  | .tupleE es => noNumpyEList es
  | .call f args kws =>
      (match f with
        | .attribute _ attr => !(attr == "numpy")
        | _ => true) && noNumpyE f && noNumpyEList args && noNumpyEKws kws

def noNumpyEList : List Expr → Bool
  | [] => true
  | e :: es => noNumpyE e && noNumpyEList es

def noNumpyEKws : List (Option String × Expr) → Bool
  | [] => true
  | (_, v) :: t => noNumpyE v && noNumpyEKws t

end

mutual

/-- The statement is inert for the control-flow pass: it contains no `numpy`
accessor call and every `if` test inside it is classified decidable. -/
def ifeCleanS (cfg : Expr → Bool) : Stmt → Bool
  | .assign t v => noNumpyE t && noNumpyE v
  | .exprStmt v => noNumpyE v
  | .ifStmt test b o =>
      !(cfg test) && noNumpyE test && ifeCleanList cfg b && ifeCleanList cfg o
  | .funcDef _ _ d b => noNumpyEList d && ifeCleanList cfg b
  | .ret v => noNumpyE v
  | .pass => true

def ifeCleanList (cfg : Expr → Bool) : List Stmt → Bool
  | [] => true
  | s :: rest => ifeCleanS cfg s && ifeCleanList cfg rest

end

/-- Decorator names stripped by the transformers. -/
def DECORATOR_NAMES : List String := ["dygraph_to_static_output", "dygraph_to_static_graph"]

/-- Environment of the API pass: the scope-variable-type dictionary
(`scope_var_type_dict`, computed by the external static analysis) and the
dynamic-class-to-static-api rewrite table `dygraph_class_to_static_api`. -/
structure ApiEnv where
  svt : List (String × List NodeVarType)
  staticApiOf : String → Option String

/-- State of the API pass: the shape-provenance map `name_to_tensor_shape`,
the class-instantiation map `class_node_dict`, the feed map
`feed_name_to_arg_id` (whose keys, produced by the external
`unique_name.generate`, are modelled from the spec as the base name paired
with a monotonically increasing counter value) and that counter. -/
structure ApiState where
  nts : List (String × Expr)
  classDict : List (String × Expr)
  feed : List ((String × Nat) × String)
  counter : Nat
  deriving Repr, DecidableEq

/-- Initial state of the API pass. -/
def initApiState : ApiState := ⟨[], [], [], 0⟩

/-- Embeds the value extraction of `_update_feed_dict`: the last keyword named
value wins, else the first positional argument; `none` when neither exists
(in the source, reading `node.args[0]` then raises an uncaught IndexError). -/
def extract_feed_value : Expr → Option Expr
  | .call _ args kws =>
      match kws.foldl (fun acc kv => if kv.1 == some "value" then some kv.2 else acc) none with
      | some v => some v
      | none => args.head?
  | _ => none

/-- Embeds `BasicApiTransformer._update_feed_dict`: for a simple-name value a
fresh generated name is bound to the variable name in the feed map; any other
value leaves the state unchanged; a missing value is the uncaught-exception
case. -/
def update_feed_dict (st : ApiState) (node : Expr) : Option ApiState :=
  match extract_feed_value node with
  | none => none
  | some (.name varName) =>
      some { st with feed := ((varName, st.counter), varName) :: st.feed,
                     counter := st.counter + 1 }
  | some _ => some st

/-- Embeds `BasicApiTransformer._update_name_to_tensor_shape`: records the
assignment target in the shape-provenance map when the assigned value is an
already tracked name, a tensor shape attribute access, or a subscript whose
base is a tensor shape attribute access; dict overwrite is modelled by
prepending (lookup takes the newest binding). A target that is not a simple
name is the caught-AttributeError case and records nothing. -/
def update_name_to_tensor_shape (env : ApiEnv) (st : ApiState)
    (target value : Expr) : Bool × ApiState :=
  match target with
  | .name targetId =>
      match value with
      | .name valueId =>
          (match st.nts.lookup valueId with
            | some shapeNode => (true, { st with nts := (targetId, shapeNode) :: st.nts })
            | none => (false, st))
      | .attribute v a =>
          if is_tensor_shape st.nts env.svt (.attribute v a) then
            (true, { st with nts := (targetId, .attribute v a) :: st.nts })
          else (false, st)
      | .subscript sv si =>
          (match sv with
            | .attribute _ _ =>
                if is_tensor_shape st.nts env.svt sv then
                  (true, { st with nts := (targetId, .subscript sv si) :: st.nts })
                else (false, st)
            | _ => (false, st))
      | _ => (false, st)
  | _ => (false, st)

/-- Embeds `BasicApiTransformer._update_class_node_dict`: an assignment whose
value is a dynamic-only class construction with a known static equivalent is
recorded (rendered target to construction call) and reported for removal.
The external `update_args_of_func` (utils.py, not part of the given sources)
injects signature keywords into the construction call; nothing in the spec
constrains it beyond keeping the recorded call, so it is modelled as the
identity. Reading `value.func.attr` on a non-attribute callee is the
uncaught-exception case. -/
def update_class_node_dict (env : ApiEnv) (st : ApiState)
    (target value : Expr) : Option (Bool × ApiState) :=
  match value with
  | .call f args kws =>
      if is_to_variable (.call f args kws) then some (false, st)
      else if is_dygraph_api (.call f args kws) then
        match f with
        | .attribute _ dygraphApi =>
            (match env.staticApiOf dygraphApi with
              | none => some (false, st)
              | some _ =>
                  some (true, { st with
                    classDict := (render target, .call f args kws) :: st.classDict }))
        | _ => none
      else some (false, st)
  | _ => some (false, st)

/-- Modelled from the spec: `utils.to_static_ast` (not part of the given
sources) replaces a forward call on a recorded instance by a direct
invocation of the static equivalent of its dynamic class, merging the
original construction arguments with the call arguments. -/
def to_static_ast (env : ApiEnv) (node classNode : Expr) : Expr :=
  match node, classNode with
  | .call nf args kws, .call cf cargs ckws =>
      (match cf with
        | .attribute _ dygraphApi =>
            (match env.staticApiOf dygraphApi with
              | some staticApi =>
                  .call (.attribute (.attribute (.name "fluid") "layers") staticApi)
                    (args ++ cargs) (kws ++ ckws)
              | none => .call nf args kws)
        | _ => .call nf args kws)
  | _, _ => node

mutual

/-- Embeds the expression dispatch of `BasicApiTransformer`. `visit_Name` and
`visit_Attribute` are leaf rewrites (the source never recurses below them);
all other nodes recurse generically. `chain` is the ancestor chain handed to
the wrapper-map walk of `_used_by_paddle_api`; because the walk stops at the
first call ancestor, gating on the chain reproduces exactly which nodes the
source dispatches under a graph-api call. When `doCall` is set the traversal
additionally applies, at every call node, the tree effect of `_visit_Call`
(the dygraph-forward rewrite through the class-instantiation map, applied in
the source by in-place mutation during the call walk of `visit_Assign` and
`visit_Expr`); in generic statement positions (if tests, return values,
decorators) the source never calls `_visit_Call`, so `doCall` is unset there.
A tensor-construction call needs no case of its own: its replacement node
`to_assign_node` is returned by `_visit_Call` but discarded by both callers,
so the tree keeps the original call. -/
def apiVisitExpr (doCall : Bool) (env : ApiEnv) (st : ApiState)
    (chain : List Expr) : Expr → Expr
  | .name id =>
      (match st.nts.lookup id with
        | some shapeNode =>
            if used_by_paddle_api is_paddle_api (some chain) then
              match shapeNode with
              | .attribute v a => create_api_shape_node (.attribute v a)
              | .subscript v i => .subscript (create_api_shape_node v) i
              | _ => .name id
            else .name id
        | none => .name id)
  | .num n => .num n
  | .attribute v a =>
      if used_by_paddle_api is_paddle_api (some chain) &&
          is_tensor_shape st.nts env.svt (.attribute v a) then
        create_api_shape_node (.attribute v a)
      else .attribute v a
  | .subscript v i =>
      .subscript (apiVisitExpr doCall env st (.subscript v i :: chain) v)
        (apiVisitExpr doCall env st (.subscript v i :: chain) i)
  | .tupleE es => .tupleE (apiVisitExprList doCall env st (.tupleE es :: chain) es)
  | .call f args kws =>
      let f2 := apiVisitExpr doCall env st (.call f args kws :: chain) f
      let args2 := apiVisitExprList doCall env st (.call f args kws :: chain) args
      let kws2 := apiVisitKws doCall env st (.call f args kws :: chain) kws
      if doCall then
        match st.classDict.lookup (render f2) with
        | some classNode => to_static_ast env (.call f2 args2 kws2) classNode
        | none => .call f2 args2 kws2
      else .call f2 args2 kws2

def apiVisitExprList (doCall : Bool) (env : ApiEnv) (st : ApiState)
    (chain : List Expr) : List Expr → List Expr
  | [] => []
  | e :: es => apiVisitExpr doCall env st chain e :: apiVisitExprList doCall env st chain es

def apiVisitKws (doCall : Bool) (env : ApiEnv) (st : ApiState)
    (chain : List Expr) : List (Option String × Expr) → List (Option String × Expr)
  | [] => []
  | (a, v) :: t => (a, apiVisitExpr doCall env st chain v) :: apiVisitKws doCall env st chain t

end

/-- Outcome of the call walk of `visit_Assign` and `visit_Expr`: `crash` is an
uncaught exception, `removed` the early return that drops the whole
statement, `ok` normal completion with the updated state. -/
inductive WalkOut where
  | crash
  | removed (st : ApiState)
  | ok (st : ApiState)
  deriving Repr, DecidableEq

mutual

/-- Embeds the `gast.walk` loop of `visit_Assign` and `visit_Expr` over the
statement value: every call subterm is processed in traversal order (the
source walks breadth-first over the mutating tree, this embedding structurally
depth-first; the difference only shows in the relative order of effects of
sibling nested calls). At a call, when `abortDy` is set and the call is
classified a dygraph api the walk aborts, dropping the statement; otherwise
the state effect of `_visit_Call` is applied — only the feed-map update of a
tensor-construction call changes the state, since the replacement nodes
`_visit_Call` returns are discarded by both callers. Tree rewriting is
applied separately by `apiVisitExpr`; the two commute because the walk
changes only the feed map and counter, which the tree rewrites never read. -/
def walkState (abortDy : Bool) : Expr → ApiState → WalkOut
  | .name _, st => .ok st
  | .num _, st => .ok st
  | .attribute v _, st => walkState abortDy v st
  | .subscript v i, st =>
      (match walkState abortDy v st with
        | .ok st1 => walkState abortDy i st1
        | out => out)
  | .tupleE es, st => walkStateList abortDy es st
  | .call f args kws, st =>
      if abortDy && is_dygraph_api (.call f args kws) then .removed st
      else
        match
          (if is_to_variable (.call f args kws) then
            update_feed_dict st (.call f args kws)
          else some st) with
        | none => .crash
        | some st1 =>
            match walkState abortDy f st1 with
            | .ok st2 =>
                (match walkStateList abortDy args st2 with
                  | .ok st3 => walkStateKws abortDy kws st3
                  | out => out)
            | out => out

def walkStateList (abortDy : Bool) : List Expr → ApiState → WalkOut
  | [], st => .ok st
  | e :: es, st =>
      (match walkState abortDy e st with
        | .ok st1 => walkStateList abortDy es st1
        | out => out)

def walkStateKws (abortDy : Bool) : List (Option String × Expr) → ApiState → WalkOut
  | [], st => .ok st
  | (_, v) :: t, st =>
      (match walkState abortDy v st with
        | .ok st1 => walkStateKws abortDy t st1
        | out => out)

end

/-- Filters a decorator list by name, as both transformers do
(`d.id not in DECORATOR_NAMES`); a non-name decorator is the
uncaught-AttributeError case of the source. -/
def filterDecorators : List Expr → Option (List Expr)
  | [] => some []
  | .name id :: rest =>
      (match filterDecorators rest with
        | none => none
        | some rest2 =>
            some (if DECORATOR_NAMES.contains id then rest2 else .name id :: rest2))
  | _ :: _ => none

mutual

/-- Embeds the statement dispatch of `BasicApiTransformer` (`visit_Assign`,
`visit_Expr`, `visit_FunctionDef` and the generic traversal of the remaining
statements). A result `some (none, st)` is a removed statement; the outer
`none` is an uncaught exception. -/
def apiVisitStmt (env : ApiEnv) : Stmt → ApiState → Option (Option Stmt × ApiState)
  | .assign target value, st =>
      (match update_class_node_dict env st target value with
        | none => none
        | some (true, st1) => some (none, st1)
        | some (false, st1) =>
            match update_name_to_tensor_shape env st1 target value with
            | (true, st2) => some (some (.assign target value), st2)
            | (false, st2) =>
                match walkState false value st2 with
                | .crash => none
                | .removed _ => none
                | .ok st3 =>
                    some (some (.assign target (apiVisitExpr true env st2 [] value)), st3))
  | .exprStmt value, st =>
      (match walkState true value st with
        | .crash => none
        | .removed st1 => some (none, st1)
        | .ok st1 => some (some (.exprStmt (apiVisitExpr true env st [] value)), st1))
  | .ifStmt test body orelse, st =>
      (match apiVisitStmts env body st with
        | none => none
        | some (body2, st1) =>
            match apiVisitStmts env orelse st1 with
            | none => none
            | some (orelse2, st2) =>
                some (some (.ifStmt (apiVisitExpr false env st [] test) body2 orelse2), st2))
  | .funcDef n args decs body, st =>
      (match apiVisitStmts env body st with
        | none => none
        | some (body2, st1) =>
            match filterDecorators (decs.map (apiVisitExpr false env st1 [])) with
            | none => none
            | some decs2 => some (some (.funcDef n args decs2 body2), st1))
  | .ret v, st => some (some (.ret (apiVisitExpr false env st [] v)), st)
  | .pass, st => some (some .pass, st)

def apiVisitStmts (env : ApiEnv) : List Stmt → ApiState → Option (List Stmt × ApiState)
  | [], st => some ([], st)
  | s :: rest, st =>
      (match apiVisitStmt env s st with
        | none => none
        | some (os, st1) =>
            match apiVisitStmts env rest st1 with
            | none => none
            | some (rest2, st2) =>
                some ((match os with | some s2 => s2 :: rest2 | none => rest2), st2))

end

mutual

/-- Embeds the generic pass of `DygraphToStaticAst` (`visit` with only
`visit_FunctionDef` overridden): decorator names in `DECORATOR_NAMES` are
stripped from every function definition; everything else is traversed
unchanged. -/
def genericVisitStmt : Stmt → Option Stmt
  | .funcDef n args decs body =>
      (match genericVisitStmts body with
        | none => none
        | some body2 =>
            match filterDecorators decs with
            | none => none
            | some decs2 => some (.funcDef n args decs2 body2))
  | .ifStmt t b o =>
      (match genericVisitStmts b with
        | none => none
        | some b2 =>
            match genericVisitStmts o with
            | none => none
            | some o2 => some (.ifStmt t b2 o2))
  | .assign t v => some (.assign t v)
  | .exprStmt v => some (.exprStmt v)
  | .ret v => some (.ret v)
  | .pass => some .pass

def genericVisitStmts : List Stmt → Option (List Stmt)
  | [] => some []
  | s :: rest =>
      (match genericVisitStmt s with
        | none => none
        | some s2 =>
            match genericVisitStmts rest with
            | none => none
            | some rest2 => some (s2 :: rest2))

end

/-- Modelled from the spec: the Iteration Transformer
(`loop_transformer.py`, not part of the given sources) rewrites only
iteration constructs; the embedded statement language contains no loop
constructs, so it acts as the identity. -/
def loop_transformer_transform (prog : List Stmt) : List Stmt := prog

/-- Embeds `DygraphToStaticAst.transfer_from_node_type`: the generic pass,
then the API pass, then the control-flow pass, then the iteration pass, in
that fixed order over the module body. -/
def transfer_from_node_type (env : ApiEnv) (cfg : Expr → Bool)
    (prog : List Stmt) : Option (List Stmt) :=
  match genericVisitStmts prog with
  | none => none
  | some p1 =>
      match apiVisitStmts env p1 initApiState with
      | none => none
      | some (p2, _) =>
          some (loop_transformer_transform (ifeTransform cfg p2).fst)


mutual

/-- Some call classified as a dygraph api occurs in the expression. -/
def hasDygraphCall : Expr → Bool
  | .name _ => false
  | .num _ => false
  | .attribute v _ => hasDygraphCall v
  | .subscript v i => hasDygraphCall v || hasDygraphCall i
  | .tupleE es => hasDygraphCallList es
  | .call f args kws =>
      is_dygraph_api (.call f args kws) || hasDygraphCall f ||
        hasDygraphCallList args || hasDygraphCallKws kws

def hasDygraphCallList : List Expr → Bool
  | [] => false
  | e :: es => hasDygraphCall e || hasDygraphCallList es

def hasDygraphCallKws : List (Option String × Expr) → Bool
  | [] => false
  | (_, v) :: t => hasDygraphCall v || hasDygraphCallKws t

end

mutual

/-- Every tensor-construction call in the expression carries an extractable
value argument, so the feed update of the call walk cannot raise. -/
def walkSafe : Expr → Bool
  | .name _ => true
  | .num _ => true
  | .attribute v _ => walkSafe v
  | .subscript v i => walkSafe v && walkSafe i
  | .tupleE es => walkSafeList es
  | .call f args kws =>
      (!(is_to_variable (.call f args kws)) ||
        (extract_feed_value (.call f args kws)).isSome) &&
      walkSafe f && walkSafeList args && walkSafeKws kws

def walkSafeList : List Expr → Bool
  | [] => true
  | e :: es => walkSafe e && walkSafeList es

def walkSafeKws : List (Option String × Expr) → Bool
  | [] => true
  | (_, v) :: t => walkSafe v && walkSafeKws t

end

mutual

/-- No `numpy` accessor call occurs anywhere in the statement. -/
def noNumpyS : Stmt → Bool
  | .assign t v => noNumpyE t && noNumpyE v
  | .exprStmt v => noNumpyE v
  | .ifStmt test b o => noNumpyE test && noNumpySList b && noNumpySList o
  | .funcDef _ _ d b => noNumpyEList d && noNumpySList b
  | .ret v => noNumpyE v
  | .pass => true

def noNumpySList : List Stmt → Bool
  | [] => true
  | s :: rest => noNumpyS s && noNumpySList rest

end

/-- Every pending function definition in the insertion map is inert for the
control-flow pass. -/
def pendingClean (cfg : Expr → Bool) : List (Stmt × Stmt × Stmt) → Bool
  | [] => true
  | (_, tf, ff) :: rest => ifeCleanS cfg tf && ifeCleanS cfg ff && pendingClean cfg rest


theorem is_tensor_shape_name_case (nts : List (String × Expr))
    (svt : List (String × List NodeVarType)) (valueId : String) :
    is_tensor_shape nts svt (.attribute (.name valueId) "shape") = true ↔
      ((∃ e, (valueId, e) ∈ nts) ∨
        ∃ varTypeSet, svt.lookup valueId = some varTypeSet ∧
          NodeVarType.NUMPY_NDARRAY ∉ varTypeSet ∧
          (NodeVarType.TENSOR ∈ varTypeSet ∨
            NodeVarType.PADDLE_RETURN_TYPES ∈ varTypeSet)) := by
  by_cases hmap : ∃ e, (valueId, e) ∈ nts
  · have hsome : (nts.lookup valueId).isSome = true := by
      simpa using hmap
    simp [is_tensor_shape, hsome, hmap]
  · cases hsvt : svt.lookup valueId with
    | none => simp [is_tensor_shape, hsvt, hmap]
    | some varTypeSet =>
        by_cases hnp : NodeVarType.NUMPY_NDARRAY ∈ varTypeSet
        · simp [is_tensor_shape, hsvt, hmap, hnp]
        · by_cases ht : NodeVarType.TENSOR ∈ varTypeSet
          · simp [is_tensor_shape, hsvt, hmap, hnp, ht]
          · by_cases hp : NodeVarType.PADDLE_RETURN_TYPES ∈ varTypeSet
            · simp [is_tensor_shape, hsvt, hmap, hnp, ht, hp]
            · simp [is_tensor_shape, hsvt, hmap, hnp, ht, hp]

/-- C5: the tensor-shape test on `v.shape` is true when the receiver is a
simple name that is either already a key of the shape-provenance map, or has
an inferred category set that excludes the host-numeric-array category and
includes the graph-tensor or graph-call-result category; it is false when the
attribute is not named shape, the receiver is not a simple name, the receiver
is absent from the environment, or the receiver is a host numeric array. -/
theorem is_tensor_shape_characterization :
    ∀ (nts : List (String × Expr)) (svt : List (String × List NodeVarType))
      (value : Expr) (attr : String),
      is_tensor_shape nts svt (.attribute value attr) = true ↔
        (attr = "shape" ∧ ∃ valueId, value = .name valueId ∧
          ((∃ e, (valueId, e) ∈ nts) ∨
            ∃ varTypeSet, svt.lookup valueId = some varTypeSet ∧
              NodeVarType.NUMPY_NDARRAY ∉ varTypeSet ∧
              (NodeVarType.TENSOR ∈ varTypeSet ∨
                NodeVarType.PADDLE_RETURN_TYPES ∈ varTypeSet)))
  | nts, svt, .name valueId, attr => by
      by_cases hattr : attr = "shape"
      · subst hattr
        simpa using is_tensor_shape_name_case nts svt valueId
      · simp [is_tensor_shape, hattr]
  | nts, svt, .num n, attr => by simp [is_tensor_shape]
  | nts, svt, .attribute v a, attr => by simp [is_tensor_shape]
  | nts, svt, .subscript v i, attr => by simp [is_tensor_shape]
  | nts, svt, .tupleE es, attr => by simp [is_tensor_shape]
  | nts, svt, .call f a k, attr => by simp [is_tensor_shape]

theorem usedChainWalk_eq_find (isApi : Expr → Bool) :
    ∀ chain : List Expr,
      used_by_paddle_api.usedChainWalk isApi chain =
        (match chain.find? isCallNode with
          | some c => isApi c
          | none => false)
  | [] => rfl
  | .name i :: rest => by
      simp [used_by_paddle_api.usedChainWalk, List.find?, isCallNode,
        usedChainWalk_eq_find isApi rest]
  | .num n :: rest => by
      simp [used_by_paddle_api.usedChainWalk, List.find?, isCallNode,
        usedChainWalk_eq_find isApi rest]
  | .attribute v a :: rest => by
      simp [used_by_paddle_api.usedChainWalk, List.find?, isCallNode,
        usedChainWalk_eq_find isApi rest]
  | .subscript v i :: rest => by
      simp [used_by_paddle_api.usedChainWalk, List.find?, isCallNode,
        usedChainWalk_eq_find isApi rest]
  | .tupleE es :: rest => by
      simp [used_by_paddle_api.usedChainWalk, List.find?, isCallNode,
        usedChainWalk_eq_find isApi rest]
  | .call f a k :: rest => by
      simp [used_by_paddle_api.usedChainWalk, List.find?, isCallNode]

/-- C6: the used-by-graph-API resolution returns false when the node has no
wrapper-map entry, and otherwise walks the ancestor chain to the first call
node: it returns true exactly when that first call ancestor is classified a
graph-framework call, and false when the chain holds no call node. -/
theorem used_by_paddle_api_first_call (isApi : Expr → Bool)
    (entry : Option (List Expr)) :
    used_by_paddle_api isApi entry =
      match entry with
      | none => false
      | some chain =>
          match chain.find? isCallNode with
          | some c => isApi c
          | none => false := by
  cases entry with
  | none => rfl
  | some chain => simpa [used_by_paddle_api] using usedChainWalk_eq_find isApi chain

mutual

theorem ifeVisitExpr_of_noNumpy : ∀ e : Expr, noNumpyE e = true → ifeVisitExpr e = e
  | .name _, _ => rfl
  | .num _, _ => rfl
  | .attribute v a, h => by
      simp only [noNumpyE] at h
      simp [ifeVisitExpr, ifeVisitExpr_of_noNumpy v h]
  | .subscript v i, h => by
      simp only [noNumpyE, Bool.and_eq_true] at h
      simp [ifeVisitExpr, ifeVisitExpr_of_noNumpy v h.1, ifeVisitExpr_of_noNumpy i h.2]
  | .tupleE es, h => by
      simp only [noNumpyE] at h
      simp [ifeVisitExpr, ifeVisitExprList_of_noNumpy es h]
  | .call (.name _) _ _, _ => rfl
  | .call (.num _) _ _, _ => rfl
  | .call (.attribute v attr) args kws, h => by
      simp only [noNumpyE, Bool.and_eq_true, Bool.not_eq_true'] at h
      have hne : ¬ attr = "numpy" := by simpa using h.1.1.1
      simp only [ifeVisitExpr, if_neg hne]
  | .call (.subscript _ _) _ _, _ => rfl
  | .call (.tupleE _) _ _, _ => rfl
  | .call (.call _ _ _) _ _, _ => rfl

theorem ifeVisitExprList_of_noNumpy :
    ∀ es : List Expr, noNumpyEList es = true → ifeVisitExprList es = es
  | [], _ => rfl
  | e :: es, h => by
      simp only [noNumpyEList, Bool.and_eq_true] at h
      simp [ifeVisitExprList, ifeVisitExpr_of_noNumpy e h.1,
        ifeVisitExprList_of_noNumpy es h.2]

end

mutual

theorem ifeVisitStmt_of_clean (cfg : Expr → Bool) :
    ∀ (s : Stmt) (st : IfeState), ifeCleanS cfg s = true →
      ifeVisitStmt cfg s st = (s, st)
  | .assign t v, st, h => by
      simp only [ifeCleanS, Bool.and_eq_true] at h
      simp [ifeVisitStmt, ifeVisitExpr_of_noNumpy t h.1, ifeVisitExpr_of_noNumpy v h.2]
  | .exprStmt v, st, h => by
      simp only [ifeCleanS] at h
      simp [ifeVisitStmt, ifeVisitExpr_of_noNumpy v h]
  | .ifStmt test b o, st, h => by
      simp only [ifeCleanS, Bool.and_eq_true, Bool.not_eq_true'] at h
      obtain ⟨⟨⟨hcfg, hnn⟩, hb⟩, ho⟩ := h
      simp [ifeVisitStmt, hcfg, ifeVisitExpr_of_noNumpy test hnn,
        ifeVisitStmts_of_clean cfg b st hb, ifeVisitStmts_of_clean cfg o st ho]
  | .funcDef n a d b, st, h => by
      simp only [ifeCleanS, Bool.and_eq_true] at h
      simp [ifeVisitStmt, ifeVisitExprList_of_noNumpy d h.1,
        ifeVisitStmts_of_clean cfg b st h.2]
  | .ret v, st, h => by
      simp only [ifeCleanS] at h
      simp [ifeVisitStmt, ifeVisitExpr_of_noNumpy v h]
  | .pass, st, _ => rfl

theorem ifeVisitStmts_of_clean (cfg : Expr → Bool) :
    ∀ (l : List Stmt) (st : IfeState), ifeCleanList cfg l = true →
      ifeVisitStmts cfg l st = (l, st)
  | [], st, _ => rfl
  | s :: rest, st, h => by
      simp only [ifeCleanList, Bool.and_eq_true] at h
      simp [ifeVisitStmts, ifeVisitStmt_of_clean cfg s st h.1,
        ifeVisitStmts_of_clean cfg rest st h.2]

end

/-- C1: evaluation of the control-flow pass at a failing input. The
undecidable `if` sits in the else-sequence of a decidable `if`. The pass
replaces it with the branch-selection call, but the after-visit sweep
`_insert_func_nodes` only descends along `body` attributes, so it never
reaches the rewritten node inside the `orelse` sequence: the two extracted
branch functions are inserted nowhere, and the pending-insertion map still
holds them when the transformation finishes. -/
theorem insert_func_nodes_misses_orelse :
    ifeTransform (fun e => e == Expr.name "cond_t")
        [Stmt.funcDef "f" ["x"] []
          [Stmt.ifStmt (.name "ok") [.pass]
            [Stmt.ifStmt (.name "cond_t")
              [.assign (.name "y") (.num 1)]
              [.assign (.name "y") (.num 2)]]]] =
      ([Stmt.funcDef "f" ["x"] []
          [Stmt.ifStmt (.name "ok") [.pass]
            [Stmt.assign (.name "y")
              (Expr.call
                (.attribute (.attribute (.name "fluid") "layers") "cond")
                [.name "cond_t", .name "true_fn_0", .name "false_fn_0"] [])]]],
       [(Stmt.assign (.name "y")
            (Expr.call
              (.attribute (.attribute (.name "fluid") "layers") "cond")
              [.name "cond_t", .name "true_fn_0", .name "false_fn_0"] []),
         Stmt.funcDef "true_fn_0" [] [] [.assign (.name "y") (.num 1)],
         Stmt.funcDef "false_fn_0" [] [] [.assign (.name "y") (.num 2)])]) := by
  decide

/-- C2, counterexample: an `if` whose test is classified decidable is not
returned byte-identical: the generic visit inside `visit_If` still rewrites
its children, here simplifying the numpy accessor call in the branch body. -/
theorem decidable_if_not_byte_identical :
    (ifeVisitStmt (fun _ => false)
        (Stmt.ifStmt (.name "c")
          [.assign (.name "a") (.call (.attribute (.name "t") "numpy") [] [])] [])
        ⟨0, []⟩).fst ≠
      Stmt.ifStmt (.name "c")
        [.assign (.name "a") (.call (.attribute (.name "t") "numpy") [] [])] [] := by
  decide

/-- C2, amended: an `if` whose test is classified decidable is never replaced
by a branch-selection node; it is returned unchanged provided nothing inside
it is itself rewritable — no numpy accessor call occurs in it and every
nested `if` test is also classified decidable. (In general the node identity
is kept but its children may be rewritten by the nested visits.) -/
theorem decidable_if_with_inert_children_unchanged (cfg : Expr → Bool)
    (test : Expr) (body orelse : List Stmt) (st : IfeState)
    (hdec : cfg test = false) (hnn : noNumpyE test = true)
    (hb : ifeCleanList cfg body = true) (ho : ifeCleanList cfg orelse = true) :
    ifeVisitStmt cfg (.ifStmt test body orelse) st = (.ifStmt test body orelse, st) := by
  apply ifeVisitStmt_of_clean
  simp [ifeCleanS, hdec, hnn, hb, ho]

/-- C2, witness for the amended theorem at a concrete decidable `if`. -/
theorem decidable_if_with_inert_children_unchanged_witness :
    ifeVisitStmt (fun e => e == Expr.name "u")
        (.ifStmt (.name "c") [.pass] [.assign (.name "a") (.num 1)]) ⟨0, []⟩ =
      (.ifStmt (.name "c") [.pass] [.assign (.name "a") (.num 1)], ⟨0, []⟩) :=
  decidable_if_with_inert_children_unchanged (fun e => e == Expr.name "u")
    (.name "c") [.pass] [.assign (.name "a") (.num 1)] ⟨0, []⟩
    (by decide) (by decide) (by decide) (by decide)

/-- C9, counterexample: the numpy accessor call is removed even when it is not
a subscription receiver — here on the right-hand side of an assignment,
`a = t.numpy()` becomes `a = t` — so the rewrite does not happen exactly when
the call is used purely as a subscription receiver. -/
theorem numpy_removed_outside_subscript :
    (ifeVisitStmt (fun _ => false)
        (Stmt.assign (.name "a") (.call (.attribute (.name "t") "numpy") [] []))
        ⟨0, []⟩).fst =
      Stmt.assign (.name "a") (.name "t") := by
  decide

/-- C9, amended: during the control-flow pass, every visited call of a numpy
attribute accessor is replaced by its receiver — in subscription-receiver
position and in any other visited position alike — and the rewrite is a
purely local replacement independent of the branch-rewrite logic. -/
theorem numpy_accessor_removed_at_visited_calls (v : Expr) (args : List Expr)
    (kws : List (Option String × Expr)) (i : Expr) :
    ifeVisitExpr (.call (.attribute v "numpy") args kws) = v ∧
    ifeVisitExpr (.subscript (.call (.attribute v "numpy") args kws) i) =
      .subscript v (ifeVisitExpr i) := by
  constructor
  · simp [ifeVisitExpr]
  · simp [ifeVisitExpr]

theorem update_feed_dict_of_not_name :
    ∀ (st : ApiState) (node e : Expr), extract_feed_value node = some e →
      (∀ v, e ≠ Expr.name v) → update_feed_dict st node = some st
  | _, _, .name v, _, hnot => absurd rfl (hnot v)
  | st, node, .num _, hex, _ => by simp [update_feed_dict, hex]
  | st, node, .attribute _ _, hex, _ => by simp [update_feed_dict, hex]
  | st, node, .subscript _ _, hex, _ => by simp [update_feed_dict, hex]
  | st, node, .tupleE _, hex, _ => by simp [update_feed_dict, hex]
  | st, node, .call _ _ _, hex, _ => by simp [update_feed_dict, hex]

/-- C7: for a tensor-construction call whose extracted value is a simple name,
the feed update adds exactly one entry, binding a freshly generated name —
distinct from every existing key — to that variable name, and keeps all keys
fresh for later generations; when the extracted value is not a simple name,
the call is processed without aborting and the feed map gains no entry. -/
theorem update_feed_dict_feed_map (st : ApiState) (node : Expr) :
    (∀ varName, extract_feed_value node = some (.name varName) →
      (∀ p ∈ st.feed, p.1.2 < st.counter) →
      update_feed_dict st node =
          some { st with feed := ((varName, st.counter), varName) :: st.feed,
                         counter := st.counter + 1 } ∧
        (∀ p ∈ st.feed, p.1 ≠ (varName, st.counter)) ∧
        (∀ p ∈ ((varName, st.counter), varName) :: st.feed, p.1.2 < st.counter + 1)) ∧
    (∀ e, extract_feed_value node = some e → (∀ v, e ≠ Expr.name v) →
      update_feed_dict st node = some st) := by
  constructor
  · intro varName hex hfresh
    refine ⟨by simp [update_feed_dict, hex], ?_, ?_⟩
    · intro p hp heq
      have hlt := hfresh p hp
      rw [heq] at hlt
      exact absurd hlt (lt_irrefl _)
    · intro p hp
      rcases List.mem_cons.mp hp with h | h
      · rw [h]
        exact Nat.lt_succ_self _
      · exact Nat.lt_succ_of_lt (hfresh p h)
  · intro e hex hnot
    exact update_feed_dict_of_not_name st node e hex hnot

/-- C7, witness: the feed update at a concrete tensor-construction call with a
name argument, and at one with a numeric argument. -/
theorem update_feed_dict_feed_map_witness :
    (update_feed_dict ⟨[], [], [(("v", 0), "v")], 1⟩
        (.call (.attribute (.attribute (.name "fluid") "dygraph") "to_variable")
          [.name "v"] []) =
        some ⟨[], [], [(("v", 1), "v"), (("v", 0), "v")], 2⟩ ∧
      (∀ p ∈ [((("v" : String), 0), ("v" : String))], p.1 ≠ ("v", 1)) ∧
      (∀ p ∈ [((("v" : String), 1), ("v" : String)), (("v", 0), "v")], p.1.2 < 2)) ∧
    update_feed_dict ⟨[], [], [(("v", 0), "v")], 1⟩
        (.call (.attribute (.attribute (.name "fluid") "dygraph") "to_variable")
          [.num 3] []) =
      some ⟨[], [], [(("v", 0), "v")], 1⟩ :=
  ⟨(update_feed_dict_feed_map ⟨[], [], [(("v", 0), "v")], 1⟩
        (.call (.attribute (.attribute (.name "fluid") "dygraph") "to_variable")
          [.name "v"] [])).1 "v" (by decide) (by decide),
   (update_feed_dict_feed_map ⟨[], [], [(("v", 0), "v")], 1⟩
        (.call (.attribute (.attribute (.name "fluid") "dygraph") "to_variable")
          [.num 3] [])).2 (.num 3) (by decide) (fun v h => Expr.noConfusion h)⟩

/-- C4, counterexample: in the chain a = t.shape; b = a; c = b[0], the
provenance recording does not cover a subscript of a tracked name (only
subscripts of a shape attribute access), so a later use of c as an argument
of a graph-framework call is left referring to c instead of being routed
through the symbolic shape accessor on t. -/
theorem shape_chain_c_not_rewritten :
    apiVisitStmts (⟨[("t", [NodeVarType.TENSOR])], fun _ => none⟩ : ApiEnv)
      [.funcDef "f" ["t"] []
        [.assign (.name "a") (.attribute (.name "t") "shape"),
         .assign (.name "b") (.name "a"),
         .assign (.name "c") (.subscript (.name "b") (.num 0)),
         .assign (.name "r3")
           (.call (.attribute (.attribute (.name "fluid") "layers") "relu") [.name "c"] [])]]
      initApiState =
    some ([.funcDef "f" ["t"] []
        [.assign (.name "a") (.attribute (.name "t") "shape"),
         .assign (.name "b") (.name "a"),
         .assign (.name "c") (.subscript (.name "b") (.num 0)),
         .assign (.name "r3")
           (.call (.attribute (.attribute (.name "fluid") "layers") "relu") [.name "c"] [])]],
      ⟨[("b", .attribute (.name "t") "shape"), ("a", .attribute (.name "t") "shape")],
        [], [], 0⟩) := by
  decide

set_option maxHeartbeats 2000000 in
/-- C4, amended: in the chain a = t.shape; b = a; c = b[0] with t a graph
tensor, later uses of a and b as arguments of a graph-framework call are
rewritten to route through the symbolic shape accessor applied to t, but the
use of c is left unchanged: the provenance map tracks direct shape attribute
accesses, aliases of tracked names, and subscripts of shape attribute
accesses, not subscripts of a tracked name. -/
theorem shape_chain_partial_rewrites (env : ApiEnv) (a b c t r1 r2 r3 f : String)
    (ht : is_tensor_shape [] env.svt (.attribute (.name t) "shape") = true)
    (hab : a ≠ b) (hca : c ≠ a) (hcb : c ≠ b) :
    apiVisitStmts env
      [.funcDef f [t] []
        [.assign (.name a) (.attribute (.name t) "shape"),
         .assign (.name b) (.name a),
         .assign (.name c) (.subscript (.name b) (.num 0)),
         .assign (.name r1)
           (.call (.attribute (.attribute (.name "fluid") "layers") "relu") [.name a] []),
         .assign (.name r2)
           (.call (.attribute (.attribute (.name "fluid") "layers") "relu") [.name b] []),
         .assign (.name r3)
           (.call (.attribute (.attribute (.name "fluid") "layers") "relu") [.name c] [])]]
      initApiState =
    some ([.funcDef f [t] []
        [.assign (.name a) (.attribute (.name t) "shape"),
         .assign (.name b) (.name a),
         .assign (.name c) (.subscript (.name b) (.num 0)),
         .assign (.name r1)
           (.call (.attribute (.attribute (.name "fluid") "layers") "relu")
             [.call (.attribute (.attribute (.name "fluid") "layers") "shape") [.name t] []] []),
         .assign (.name r2)
           (.call (.attribute (.attribute (.name "fluid") "layers") "relu")
             [.call (.attribute (.attribute (.name "fluid") "layers") "shape") [.name t] []] []),
         .assign (.name r3)
           (.call (.attribute (.attribute (.name "fluid") "layers") "relu") [.name c] [])]],
      ⟨[(b, .attribute (.name t) "shape"), (a, .attribute (.name t) "shape")], [], [], 0⟩) := by
  have hrelu : ∀ (nts : List (String × Expr)) (svt : List (String × List NodeVarType)) (v : Expr),
      is_tensor_shape nts svt (.attribute v "relu") = false := by
    intro nts svt v
    simp [is_tensor_shape]
  have habf : (a == b) = false := by simp [hab]
  have hcaf : (c == a) = false := by simp [hca]
  have hcbf : (c == b) = false := by simp [hcb]
  have hto4 : ∀ u : String,
      is_to_variable (.call (.attribute (.attribute (.name "fluid") "layers") "relu")
        [.name u] []) = false := fun _ => rfl
  have hdy4 : ∀ u : String,
      is_dygraph_api (.call (.attribute (.attribute (.name "fluid") "layers") "relu")
        [.name u] []) = false := fun _ => rfl
  have hpadd : ∀ u : String,
      is_paddle_api (.call (.attribute (.attribute (.name "fluid") "layers") "relu")
        [.name u] []) = true := fun _ => rfl
  have e1 : apiVisitStmt env (.assign (.name a) (.attribute (.name t) "shape")) initApiState =
      some (some (.assign (.name a) (.attribute (.name t) "shape")),
        ⟨[(a, .attribute (.name t) "shape")], [], [], 0⟩) := by
    simp [apiVisitStmt, update_class_node_dict, update_name_to_tensor_shape, ht, initApiState]
  have e2 : apiVisitStmt env (.assign (.name b) (.name a))
      (⟨[(a, .attribute (.name t) "shape")], [], [], 0⟩ : ApiState) =
      some (some (.assign (.name b) (.name a)),
        ⟨[(b, .attribute (.name t) "shape"), (a, .attribute (.name t) "shape")], [], [], 0⟩) := by
    simp [apiVisitStmt, update_class_node_dict, update_name_to_tensor_shape, List.lookup]
  have e3 : apiVisitStmt env (.assign (.name c) (.subscript (.name b) (.num 0)))
      (⟨[(b, .attribute (.name t) "shape"), (a, .attribute (.name t) "shape")], [], [], 0⟩ : ApiState) =
      some (some (.assign (.name c) (.subscript (.name b) (.num 0))),
        ⟨[(b, .attribute (.name t) "shape"), (a, .attribute (.name t) "shape")], [], [], 0⟩) := by
    simp [apiVisitStmt, update_class_node_dict, update_name_to_tensor_shape, walkState,
      apiVisitExpr, walkStateList, walkStateKws, used_by_paddle_api, used_by_paddle_api.usedChainWalk, List.lookup]
  have e4 : apiVisitStmt env
      (.assign (.name r1)
        (.call (.attribute (.attribute (.name "fluid") "layers") "relu") [.name a] []))
      (⟨[(b, .attribute (.name t) "shape"), (a, .attribute (.name t) "shape")], [], [], 0⟩ : ApiState) =
      some (some (.assign (.name r1)
        (.call (.attribute (.attribute (.name "fluid") "layers") "relu")
          [.call (.attribute (.attribute (.name "fluid") "layers") "shape") [.name t] []] [])),
        ⟨[(b, .attribute (.name t) "shape"), (a, .attribute (.name t) "shape")], [], [], 0⟩) := by
    simp [apiVisitStmt, update_class_node_dict, update_name_to_tensor_shape, walkState,
      apiVisitExpr, apiVisitExprList, apiVisitKws, walkStateList, walkStateKws, used_by_paddle_api,
      used_by_paddle_api.usedChainWalk, create_api_shape_node, List.lookup,
      hto4, hdy4, hpadd, hrelu, habf]
  have e5 : apiVisitStmt env
      (.assign (.name r2)
        (.call (.attribute (.attribute (.name "fluid") "layers") "relu") [.name b] []))
      (⟨[(b, .attribute (.name t) "shape"), (a, .attribute (.name t) "shape")], [], [], 0⟩ : ApiState) =
      some (some (.assign (.name r2)
        (.call (.attribute (.attribute (.name "fluid") "layers") "relu")
          [.call (.attribute (.attribute (.name "fluid") "layers") "shape") [.name t] []] [])),
        ⟨[(b, .attribute (.name t) "shape"), (a, .attribute (.name t) "shape")], [], [], 0⟩) := by
    simp [apiVisitStmt, update_class_node_dict, update_name_to_tensor_shape, walkState,
      apiVisitExpr, apiVisitExprList, apiVisitKws, walkStateList, walkStateKws, used_by_paddle_api,
      used_by_paddle_api.usedChainWalk, create_api_shape_node, List.lookup,
      hto4, hdy4, hpadd, hrelu]
  have e6 : apiVisitStmt env
      (.assign (.name r3)
        (.call (.attribute (.attribute (.name "fluid") "layers") "relu") [.name c] []))
      (⟨[(b, .attribute (.name t) "shape"), (a, .attribute (.name t) "shape")], [], [], 0⟩ : ApiState) =
      some (some (.assign (.name r3)
        (.call (.attribute (.attribute (.name "fluid") "layers") "relu") [.name c] [])),
        ⟨[(b, .attribute (.name t) "shape"), (a, .attribute (.name t) "shape")], [], [], 0⟩) := by
    simp [apiVisitStmt, update_class_node_dict, update_name_to_tensor_shape, walkState,
      apiVisitExpr, apiVisitExprList, apiVisitKws, walkStateList, walkStateKws, used_by_paddle_api,
      used_by_paddle_api.usedChainWalk, List.lookup, hto4, hdy4, hpadd, hrelu, hcaf, hcbf]
  have hbody : apiVisitStmts env
      [.assign (.name a) (.attribute (.name t) "shape"),
       .assign (.name b) (.name a),
       .assign (.name c) (.subscript (.name b) (.num 0)),
       .assign (.name r1)
         (.call (.attribute (.attribute (.name "fluid") "layers") "relu") [.name a] []),
       .assign (.name r2)
         (.call (.attribute (.attribute (.name "fluid") "layers") "relu") [.name b] []),
       .assign (.name r3)
         (.call (.attribute (.attribute (.name "fluid") "layers") "relu") [.name c] [])]
      initApiState =
      some ([.assign (.name a) (.attribute (.name t) "shape"),
             .assign (.name b) (.name a),
             .assign (.name c) (.subscript (.name b) (.num 0)),
             .assign (.name r1)
               (.call (.attribute (.attribute (.name "fluid") "layers") "relu")
                 [.call (.attribute (.attribute (.name "fluid") "layers") "shape") [.name t] []] []),
             .assign (.name r2)
               (.call (.attribute (.attribute (.name "fluid") "layers") "relu")
                 [.call (.attribute (.attribute (.name "fluid") "layers") "shape") [.name t] []] []),
             .assign (.name r3)
               (.call (.attribute (.attribute (.name "fluid") "layers") "relu") [.name c] [])],
        ⟨[(b, .attribute (.name t) "shape"), (a, .attribute (.name t) "shape")], [], [], 0⟩) := by
    simp only [apiVisitStmts, e1, e2, e3, e4, e5, e6]
  have hfd : apiVisitStmt env
      (.funcDef f [t] []
        [.assign (.name a) (.attribute (.name t) "shape"),
         .assign (.name b) (.name a),
         .assign (.name c) (.subscript (.name b) (.num 0)),
         .assign (.name r1)
           (.call (.attribute (.attribute (.name "fluid") "layers") "relu") [.name a] []),
         .assign (.name r2)
           (.call (.attribute (.attribute (.name "fluid") "layers") "relu") [.name b] []),
         .assign (.name r3)
           (.call (.attribute (.attribute (.name "fluid") "layers") "relu") [.name c] [])])
      initApiState =
      some (some (.funcDef f [t] []
        [.assign (.name a) (.attribute (.name t) "shape"),
         .assign (.name b) (.name a),
         .assign (.name c) (.subscript (.name b) (.num 0)),
         .assign (.name r1)
           (.call (.attribute (.attribute (.name "fluid") "layers") "relu")
             [.call (.attribute (.attribute (.name "fluid") "layers") "shape") [.name t] []] []),
         .assign (.name r2)
           (.call (.attribute (.attribute (.name "fluid") "layers") "relu")
             [.call (.attribute (.attribute (.name "fluid") "layers") "shape") [.name t] []] []),
         .assign (.name r3)
           (.call (.attribute (.attribute (.name "fluid") "layers") "relu") [.name c] [])]),
        ⟨[(b, .attribute (.name t) "shape"), (a, .attribute (.name t) "shape")], [], [], 0⟩) := by
    simp [apiVisitStmt, hbody, filterDecorators]
  simp [apiVisitStmts, hfd]

/-- C4, witness for the amended chain theorem at concrete names. -/
theorem shape_chain_partial_rewrites_witness :
    apiVisitStmts (⟨[("t", [NodeVarType.TENSOR])], fun _ => none⟩ : ApiEnv)
      [.funcDef "f" ["t"] []
        [.assign (.name "a") (.attribute (.name "t") "shape"),
         .assign (.name "b") (.name "a"),
         .assign (.name "c") (.subscript (.name "b") (.num 0)),
         .assign (.name "r1")
           (.call (.attribute (.attribute (.name "fluid") "layers") "relu") [.name "a"] []),
         .assign (.name "r2")
           (.call (.attribute (.attribute (.name "fluid") "layers") "relu") [.name "b"] []),
         .assign (.name "r3")
           (.call (.attribute (.attribute (.name "fluid") "layers") "relu") [.name "c"] [])]]
      initApiState =
    some ([.funcDef "f" ["t"] []
        [.assign (.name "a") (.attribute (.name "t") "shape"),
         .assign (.name "b") (.name "a"),
         .assign (.name "c") (.subscript (.name "b") (.num 0)),
         .assign (.name "r1")
           (.call (.attribute (.attribute (.name "fluid") "layers") "relu")
             [.call (.attribute (.attribute (.name "fluid") "layers") "shape") [.name "t"] []] []),
         .assign (.name "r2")
           (.call (.attribute (.attribute (.name "fluid") "layers") "relu")
             [.call (.attribute (.attribute (.name "fluid") "layers") "shape") [.name "t"] []] []),
         .assign (.name "r3")
           (.call (.attribute (.attribute (.name "fluid") "layers") "relu") [.name "c"] [])]],
      ⟨[("b", .attribute (.name "t") "shape"), ("a", .attribute (.name "t") "shape")],
        [], [], 0⟩) :=
  shape_chain_partial_rewrites (⟨[("t", [NodeVarType.TENSOR])], fun _ => none⟩ : ApiEnv)
    "a" "b" "c" "t" "r1" "r2" "r3" "f" (by decide) (by decide) (by decide) (by decide)

/-- C8: for `m = DynamicLayer(...); out = m(x)` where the dynamic-only class
has a known static equivalent, the API pass removes the instantiation
statement, records the target-to-construction-call pair in the
class-instantiation map, and rewrites the later call `m(x)` into a direct
invocation of the static equivalent with the original constructor arguments
merged in after the call arguments. -/
theorem dygraph_class_forward_rewrite (env : ApiEnv) (m x outv cls staticApi : String)
    (cargs : List Expr) (ckws : List (Option String × Expr))
    (hstatic : env.staticApiOf cls = some staticApi)
    (hcto : is_to_variable
      (.call (.attribute (.attribute (.name "fluid") "dygraph") cls) cargs ckws) = false)
    (hcdy : is_dygraph_api
      (.call (.attribute (.attribute (.name "fluid") "dygraph") cls) cargs ckws) = true)
    (hmto : is_to_variable (.call (.name m) [.name x] []) = false)
    (hmdy : is_dygraph_api (.call (.name m) [.name x] []) = false) :
    apiVisitStmts env
      [.assign (.name m)
         (.call (.attribute (.attribute (.name "fluid") "dygraph") cls) cargs ckws),
       .assign (.name outv) (.call (.name m) [.name x] [])]
      initApiState =
    some ([.assign (.name outv)
            (.call (.attribute (.attribute (.name "fluid") "layers") staticApi)
              (Expr.name x :: cargs) ckws)],
      ⟨[], [(m, .call (.attribute (.attribute (.name "fluid") "dygraph") cls) cargs ckws)],
        [], 0⟩) := by
  have e1 : apiVisitStmt env
      (.assign (.name m)
        (.call (.attribute (.attribute (.name "fluid") "dygraph") cls) cargs ckws))
      initApiState =
      some (none,
        ⟨[], [(m, .call (.attribute (.attribute (.name "fluid") "dygraph") cls) cargs ckws)],
          [], 0⟩) := by
    simp [apiVisitStmt, update_class_node_dict, hcto, hcdy, hstatic, initApiState, render]
  have e2 : apiVisitStmt env (.assign (.name outv) (.call (.name m) [.name x] []))
      (⟨[], [(m, .call (.attribute (.attribute (.name "fluid") "dygraph") cls) cargs ckws)],
        [], 0⟩ : ApiState) =
      some (some (.assign (.name outv)
          (.call (.attribute (.attribute (.name "fluid") "layers") staticApi)
            (Expr.name x :: cargs) ckws)),
        ⟨[], [(m, .call (.attribute (.attribute (.name "fluid") "dygraph") cls) cargs ckws)],
          [], 0⟩) := by
    simp [apiVisitStmt, update_class_node_dict, update_name_to_tensor_shape, walkState,
      walkStateList, walkStateKws, apiVisitExpr, apiVisitExprList, apiVisitKws,
      to_static_ast, render, List.lookup, hmto, hmdy, hstatic]
  simp only [apiVisitStmts, e1, e2]

/-- C8, witness at a concrete dynamic-layer instantiation and forward call. -/
theorem dygraph_class_forward_rewrite_witness :
    apiVisitStmts
      (⟨[], fun s => if s = "Conv2D" then some "conv2d" else none⟩ : ApiEnv)
      [.assign (.name "m")
         (.call (.attribute (.attribute (.name "fluid") "dygraph") "Conv2D") [.num 3] []),
       .assign (.name "out") (.call (.name "m") [.name "x"] [])]
      initApiState =
    some ([.assign (.name "out")
            (.call (.attribute (.attribute (.name "fluid") "layers") "conv2d")
              [.name "x", .num 3] [])],
      ⟨[], [("m", .call (.attribute (.attribute (.name "fluid") "dygraph") "Conv2D")
              [.num 3] [])], [], 0⟩) :=
  dygraph_class_forward_rewrite
    (⟨[], fun s => if s = "Conv2D" then some "conv2d" else none⟩ : ApiEnv)
    "m" "x" "out" "Conv2D" "conv2d" [.num 3] []
    (by decide) (by decide) (by decide) (by decide) (by decide)

theorem update_feed_dict_some_of_extract :
    ∀ (st : ApiState) (node e : Expr), extract_feed_value node = some e →
      ∃ st2, update_feed_dict st node = some st2
  | st, node, .name v, hex =>
      ⟨{ st with feed := ((v, st.counter), v) :: st.feed, counter := st.counter + 1 },
        by simp [update_feed_dict, hex]⟩
  | st, node, .num _, hex => ⟨st, by simp [update_feed_dict, hex]⟩
  | st, node, .attribute _ _, hex => ⟨st, by simp [update_feed_dict, hex]⟩
  | st, node, .subscript _ _, hex => ⟨st, by simp [update_feed_dict, hex]⟩
  | st, node, .tupleE _, hex => ⟨st, by simp [update_feed_dict, hex]⟩
  | st, node, .call _ _ _, hex => ⟨st, by simp [update_feed_dict, hex]⟩

theorem walkState_feed_step (st : ApiState) (f : Expr) (args : List Expr)
    (kws : List (Option String × Expr))
    (hs : (!(is_to_variable (.call f args kws)) ||
        (extract_feed_value (.call f args kws)).isSome) = true) :
    ∃ st1, (if is_to_variable (.call f args kws) then
        update_feed_dict st (.call f args kws)
      else some st) = some st1 := by
  by_cases hto : is_to_variable (.call f args kws) = true
  · rw [hto] at hs
    simp only [Bool.not_true, Bool.false_or] at hs
    obtain ⟨e2, he⟩ := Option.isSome_iff_exists.mp hs
    obtain ⟨st2, h2⟩ := update_feed_dict_some_of_extract st (.call f args kws) e2 he
    exact ⟨st2, by simp [hto, h2]⟩
  · exact ⟨st, by simp [hto]⟩

mutual

theorem walkState_abort_characterization :
    ∀ (e : Expr) (st : ApiState), walkSafe e = true →
      (hasDygraphCall e = true → ∃ st2, walkState true e st = .removed st2) ∧
      (hasDygraphCall e = false → ∃ st2, walkState true e st = .ok st2)
  | .name _, st, _ =>
      ⟨fun h => by simp [hasDygraphCall] at h, fun _ => ⟨st, rfl⟩⟩
  | .num _, st, _ =>
      ⟨fun h => by simp [hasDygraphCall] at h, fun _ => ⟨st, rfl⟩⟩
  | .attribute v a, st, hs => by
      simp only [walkSafe] at hs
      refine ⟨fun h => ?_, fun h => ?_⟩
      · simp only [hasDygraphCall] at h
        obtain ⟨st2, h2⟩ := (walkState_abort_characterization v st hs).1 h
        exact ⟨st2, by simp [walkState, h2]⟩
      · simp only [hasDygraphCall] at h
        obtain ⟨st2, h2⟩ := (walkState_abort_characterization v st hs).2 h
        exact ⟨st2, by simp [walkState, h2]⟩
  | .subscript v i, st, hs => by
      simp only [walkSafe, Bool.and_eq_true] at hs
      refine ⟨fun h => ?_, fun h => ?_⟩
      · simp only [hasDygraphCall, Bool.or_eq_true] at h
        by_cases hv : hasDygraphCall v = true
        · obtain ⟨st2, h2⟩ := (walkState_abort_characterization v st hs.1).1 hv
          exact ⟨st2, by simp [walkState, h2]⟩
        · have hv2 := Bool.not_eq_true _ |>.mp hv
          obtain ⟨st1, h1⟩ := (walkState_abort_characterization v st hs.1).2 hv2
          have hi : hasDygraphCall i = true := by
            rcases h with h | h
            · exact absurd h hv
            · exact h
          obtain ⟨st2, h2⟩ := (walkState_abort_characterization i st1 hs.2).1 hi
          exact ⟨st2, by simp [walkState, h1, h2]⟩
      · simp only [hasDygraphCall, Bool.or_eq_false_iff] at h
        obtain ⟨st1, h1⟩ := (walkState_abort_characterization v st hs.1).2 h.1
        obtain ⟨st2, h2⟩ := (walkState_abort_characterization i st1 hs.2).2 h.2
        exact ⟨st2, by simp [walkState, h1, h2]⟩
  | .tupleE es, st, hs => by
      simp only [walkSafe] at hs
      refine ⟨fun h => ?_, fun h => ?_⟩
      · simp only [hasDygraphCall] at h
        obtain ⟨st2, h2⟩ := (walkStateList_abort_characterization es st hs).1 h
        exact ⟨st2, by simp [walkState, h2]⟩
      · simp only [hasDygraphCall] at h
        obtain ⟨st2, h2⟩ := (walkStateList_abort_characterization es st hs).2 h
        exact ⟨st2, by simp [walkState, h2]⟩
  | .call f args kws, st, hs => by
      simp only [walkSafe, Bool.and_eq_true] at hs
      obtain ⟨⟨⟨hto, hf⟩, hargs⟩, hkws⟩ := hs
      by_cases hdy : is_dygraph_api (.call f args kws) = true
      · refine ⟨fun _ => ⟨st, by simp [walkState, hdy]⟩, fun h => ?_⟩
        simp [hasDygraphCall, hdy] at h
      · have hdy2 := Bool.not_eq_true _ |>.mp hdy
        obtain ⟨st1, h1⟩ := walkState_feed_step st f args kws hto
        refine ⟨fun h => ?_, fun h => ?_⟩
        · simp only [hasDygraphCall, hdy2, Bool.false_or, Bool.or_eq_true] at h
          by_cases hfd : hasDygraphCall f = true
          · obtain ⟨st2, h2⟩ := (walkState_abort_characterization f st1 hf).1 hfd
            exact ⟨st2, by simp [walkState, hdy2, h1, h2]⟩
          · have hfd2 := Bool.not_eq_true _ |>.mp hfd
            obtain ⟨st2, h2⟩ := (walkState_abort_characterization f st1 hf).2 hfd2
            by_cases had : hasDygraphCallList args = true
            · obtain ⟨st3, h3⟩ := (walkStateList_abort_characterization args st2 hargs).1 had
              exact ⟨st3, by simp [walkState, hdy2, h1, h2, h3]⟩
            · have had2 := Bool.not_eq_true _ |>.mp had
              obtain ⟨st3, h3⟩ := (walkStateList_abort_characterization args st2 hargs).2 had2
              have hkd : hasDygraphCallKws kws = true := by
                rcases h with (h | h) | h
                · exact absurd h hfd
                · exact absurd h had
                · exact h
              obtain ⟨st4, h4⟩ := (walkStateKws_abort_characterization kws st3 hkws).1 hkd
              exact ⟨st4, by simp [walkState, hdy2, h1, h2, h3, h4]⟩
        · simp only [hasDygraphCall, hdy2, Bool.false_or, Bool.or_eq_false_iff] at h
          obtain ⟨⟨hfd, had⟩, hkd⟩ := h
          obtain ⟨st2, h2⟩ := (walkState_abort_characterization f st1 hf).2 hfd
          obtain ⟨st3, h3⟩ := (walkStateList_abort_characterization args st2 hargs).2 had
          obtain ⟨st4, h4⟩ := (walkStateKws_abort_characterization kws st3 hkws).2 hkd
          exact ⟨st4, by simp [walkState, hdy2, h1, h2, h3, h4]⟩

theorem walkStateList_abort_characterization :
    ∀ (es : List Expr) (st : ApiState), walkSafeList es = true →
      (hasDygraphCallList es = true → ∃ st2, walkStateList true es st = .removed st2) ∧
      (hasDygraphCallList es = false → ∃ st2, walkStateList true es st = .ok st2)
  | [], st, _ =>
      ⟨fun h => by simp [hasDygraphCallList] at h, fun _ => ⟨st, rfl⟩⟩
  | e :: es, st, hs => by
      simp only [walkSafeList, Bool.and_eq_true] at hs
      refine ⟨fun h => ?_, fun h => ?_⟩
      · simp only [hasDygraphCallList, Bool.or_eq_true] at h
        by_cases he : hasDygraphCall e = true
        · obtain ⟨st2, h2⟩ := (walkState_abort_characterization e st hs.1).1 he
          exact ⟨st2, by simp [walkStateList, h2]⟩
        · have he2 := Bool.not_eq_true _ |>.mp he
          obtain ⟨st1, h1⟩ := (walkState_abort_characterization e st hs.1).2 he2
          have hes : hasDygraphCallList es = true := by
            rcases h with h | h
            · exact absurd h he
            · exact h
          obtain ⟨st2, h2⟩ := (walkStateList_abort_characterization es st1 hs.2).1 hes
          exact ⟨st2, by simp [walkStateList, h1, h2]⟩
      · simp only [hasDygraphCallList, Bool.or_eq_false_iff] at h
        obtain ⟨st1, h1⟩ := (walkState_abort_characterization e st hs.1).2 h.1
        obtain ⟨st2, h2⟩ := (walkStateList_abort_characterization es st1 hs.2).2 h.2
        exact ⟨st2, by simp [walkStateList, h1, h2]⟩

theorem walkStateKws_abort_characterization :
    ∀ (kws : List (Option String × Expr)) (st : ApiState), walkSafeKws kws = true →
      (hasDygraphCallKws kws = true → ∃ st2, walkStateKws true kws st = .removed st2) ∧
      (hasDygraphCallKws kws = false → ∃ st2, walkStateKws true kws st = .ok st2)
  | [], st, _ =>
      ⟨fun h => by simp [hasDygraphCallKws] at h, fun _ => ⟨st, rfl⟩⟩
  | (a, v) :: t, st, hs => by
      simp only [walkSafeKws, Bool.and_eq_true] at hs
      refine ⟨fun h => ?_, fun h => ?_⟩
      · simp only [hasDygraphCallKws, Bool.or_eq_true] at h
        by_cases hv : hasDygraphCall v = true
        · obtain ⟨st2, h2⟩ := (walkState_abort_characterization v st hs.1).1 hv
          exact ⟨st2, by simp [walkStateKws, h2]⟩
        · have hv2 := Bool.not_eq_true _ |>.mp hv
          obtain ⟨st1, h1⟩ := (walkState_abort_characterization v st hs.1).2 hv2
          have hts : hasDygraphCallKws t = true := by
            rcases h with h | h
            · exact absurd h hv
            · exact h
          obtain ⟨st2, h2⟩ := (walkStateKws_abort_characterization t st1 hs.2).1 hts
          exact ⟨st2, by simp [walkStateKws, h1, h2]⟩
      · simp only [hasDygraphCallKws, Bool.or_eq_false_iff] at h
        obtain ⟨st1, h1⟩ := (walkState_abort_characterization v st hs.1).2 h.1
        obtain ⟨st2, h2⟩ := (walkStateKws_abort_characterization t st1 hs.2).2 h.2
        exact ⟨st2, by simp [walkStateKws, h1, h2]⟩

end

/-- C10: an expression statement is removed by the API pass exactly when a
call classified as a dygraph api occurs anywhere inside its expression, and
an expression statement containing no such call is kept (its value rewritten
by the visit). The hypothesis rules out the uncaught exception of a
tensor-construction call with no extractable value. -/
theorem expr_statement_removed_iff_dygraph_call (env : ApiEnv) (v : Expr)
    (st : ApiState) (hsafe : walkSafe v = true) :
    ((∃ st2, apiVisitStmt env (.exprStmt v) st = some (none, st2)) ↔
      hasDygraphCall v = true) ∧
    (hasDygraphCall v = false →
      ∃ st2, apiVisitStmt env (.exprStmt v) st =
        some (some (.exprStmt (apiVisitExpr true env st [] v)), st2)) := by
  have hw := walkState_abort_characterization v st hsafe
  constructor
  · constructor
    · rintro ⟨st2, heq⟩
      by_cases hd : hasDygraphCall v = true
      · exact hd
      · obtain ⟨st3, h3⟩ := hw.2 (Bool.not_eq_true _ |>.mp hd)
        rw [show apiVisitStmt env (.exprStmt v) st =
            some (some (.exprStmt (apiVisitExpr true env st [] v)), st3) by
          simp [apiVisitStmt, h3]] at heq
        simp at heq
    · intro hd
      obtain ⟨st2, h2⟩ := hw.1 hd
      exact ⟨st2, by simp [apiVisitStmt, h2]⟩
  · intro hd
    obtain ⟨st2, h2⟩ := hw.2 hd
    exact ⟨st2, by simp [apiVisitStmt, h2]⟩

/-- C10, witness: a statement calling a dygraph api is removed; a statement
calling only a graph api is kept. -/
theorem expr_statement_removed_iff_dygraph_call_witness :
    (((∃ st2, apiVisitStmt (⟨[], fun _ => none⟩ : ApiEnv)
        (.exprStmt (.call (.attribute (.attribute (.name "fluid") "dygraph") "enable")
          [] [])) initApiState = some (none, st2)) ↔
      hasDygraphCall (.call (.attribute (.attribute (.name "fluid") "dygraph") "enable")
        [] []) = true) ∧
    (hasDygraphCall (.call (.attribute (.attribute (.name "fluid") "dygraph") "enable")
        [] []) = false →
      ∃ st2, apiVisitStmt (⟨[], fun _ => none⟩ : ApiEnv)
        (.exprStmt (.call (.attribute (.attribute (.name "fluid") "dygraph") "enable")
          [] [])) initApiState =
        some (some (.exprStmt (apiVisitExpr true (⟨[], fun _ => none⟩ : ApiEnv)
          initApiState []
          (.call (.attribute (.attribute (.name "fluid") "dygraph") "enable") [] []))),
          st2))) ∧
    ((∃ st2, apiVisitStmt (⟨[], fun _ => none⟩ : ApiEnv)
        (.exprStmt (.call (.attribute (.attribute (.name "fluid") "layers") "relu")
          [.name "x"] [])) initApiState = some (none, st2)) ↔
      hasDygraphCall (.call (.attribute (.attribute (.name "fluid") "layers") "relu")
        [.name "x"] []) = true) :=
  ⟨expr_statement_removed_iff_dygraph_call (⟨[], fun _ => none⟩ : ApiEnv)
      (.call (.attribute (.attribute (.name "fluid") "dygraph") "enable") [] [])
      initApiState (by decide),
   (expr_statement_removed_iff_dygraph_call (⟨[], fun _ => none⟩ : ApiEnv)
      (.call (.attribute (.attribute (.name "fluid") "layers") "relu") [.name "x"] [])
      initApiState (by decide)).1⟩

theorem noNumpyEList_map_name : ∀ ns : List String,
    noNumpyEList (ns.map Expr.name) = true
  | [] => rfl
  | _ :: ns => by simp [noNumpyEList, noNumpyE, noNumpyEList_map_name ns]

theorem create_cond_node_clean (cfg : Expr → Bool) (names : List String)
    (pred : Expr) (tf ff : Stmt) (hp : noNumpyE pred = true) :
    ifeCleanS cfg (create_cond_node names pred tf ff) = true := by
  cases names with
  | nil => simp [create_cond_node, ifeCleanS, noNumpyE, noNumpyEList, noNumpyEKws, hp]
  | cons n ns =>
      cases ns with
      | nil => simp [create_cond_node, ifeCleanS, noNumpyE, noNumpyEList, noNumpyEKws, hp]
      | cons n2 ns2 =>
          simp [create_cond_node, ifeCleanS, noNumpyE, noNumpyEList, noNumpyEKws, hp,
            noNumpyEList_map_name]

theorem pendingClean_append (cfg : Expr → Bool) :
    ∀ (m : List (Stmt × Stmt × Stmt)) (k tf ff : Stmt),
      pendingClean cfg m = true → ifeCleanS cfg tf = true → ifeCleanS cfg ff = true →
      pendingClean cfg (m ++ [(k, tf, ff)]) = true
  | [], k, tf, ff, _, htf, hff => by simp [pendingClean, htf, hff]
  | (k2, tf2, ff2) :: rest, k, tf, ff, hm, htf, hff => by
      simp only [pendingClean, Bool.and_eq_true] at hm
      simp [pendingClean, hm.1.1, hm.1.2,
        pendingClean_append cfg rest k tf ff hm.2 htf hff]

theorem pendingClean_lookup (cfg : Expr → Bool) :
    ∀ (m : List (Stmt × Stmt × Stmt)) (x tf ff : Stmt),
      pendingClean cfg m = true → m.lookup x = some (tf, ff) →
      ifeCleanS cfg tf = true ∧ ifeCleanS cfg ff = true
  | [], x, tf, ff, _, hlk => by simp [List.lookup] at hlk
  | (k, tf2, ff2) :: rest, x, tf, ff, hm, hlk => by
      simp only [pendingClean, Bool.and_eq_true] at hm
      rw [List.lookup] at hlk
      by_cases hx : (x == k) = true
      · rw [hx] at hlk
        simp only [Option.some.injEq, Prod.mk.injEq] at hlk
        obtain ⟨h1, h2⟩ := hlk
        subst h1
        subst h2
        exact ⟨hm.1.1, hm.1.2⟩
      · rw [Bool.not_eq_true _ |>.mp hx] at hlk
        exact pendingClean_lookup cfg rest x tf ff hm.2 hlk

theorem pendingClean_eraseP (cfg : Expr → Bool) (p : Stmt × Stmt × Stmt → Bool) :
    ∀ m : List (Stmt × Stmt × Stmt), pendingClean cfg m = true →
      pendingClean cfg (m.eraseP p) = true
  | [], _ => by simp [List.eraseP, pendingClean]
  | (k, tf, ff) :: rest, hm => by
      simp only [pendingClean, Bool.and_eq_true] at hm
      rw [List.eraseP]
      cases p (k, tf, ff) with
      | true => simpa using hm.2
      | false =>
          simp [pendingClean, hm.1.1, hm.1.2, pendingClean_eraseP cfg p rest hm.2]

mutual

theorem ifeVisitStmt_output_clean (cfg : Expr → Bool) :
    ∀ (s : Stmt) (st : IfeState), noNumpyS s = true →
      pendingClean cfg st.newFuncNodes = true →
      ifeCleanS cfg (ifeVisitStmt cfg s st).1 = true ∧
      pendingClean cfg (ifeVisitStmt cfg s st).2.newFuncNodes = true
  | .assign t v, st, h, hm => by
      simp only [noNumpyS, Bool.and_eq_true] at h
      simp [ifeVisitStmt, ifeCleanS, ifeVisitExpr_of_noNumpy t h.1,
        ifeVisitExpr_of_noNumpy v h.2, h.1, h.2, hm]
  | .exprStmt v, st, h, hm => by
      simp only [noNumpyS] at h
      simp [ifeVisitStmt, ifeCleanS, ifeVisitExpr_of_noNumpy v h, h, hm]
  | .ret v, st, h, hm => by
      simp only [noNumpyS] at h
      simp [ifeVisitStmt, ifeCleanS, ifeVisitExpr_of_noNumpy v h, h, hm]
  | .pass, st, _, hm => by simp [ifeVisitStmt, ifeCleanS, hm]
  | .funcDef n a d b, st, h, hm => by
      simp only [noNumpyS, Bool.and_eq_true] at h
      rcases hb : ifeVisitStmts cfg b st with ⟨b2, st1⟩
      have ih := ifeVisitStmts_output_clean cfg b st h.2 hm
      rw [hb] at ih
      simp [ifeVisitStmt, hb, ifeCleanS, ifeVisitExprList_of_noNumpy d h.1, h.1,
        ih.1, ih.2]
  | .ifStmt test b o, st, h, hm => by
      simp only [noNumpyS, Bool.and_eq_true] at h
      obtain ⟨⟨ht, hb⟩, ho⟩ := h
      rcases hbe : ifeVisitStmts cfg b st with ⟨b2, st1⟩
      have ihb := ifeVisitStmts_output_clean cfg b st hb hm
      rw [hbe] at ihb
      rcases hoe : ifeVisitStmts cfg o st1 with ⟨o2, st2⟩
      have iho := ifeVisitStmts_output_clean cfg o st1 ho ihb.2
      rw [hoe] at iho
      by_cases hneed : cfg test = true
      · have htest2 : noNumpyE (ifeVisitExpr test) = true := by
          rw [ifeVisitExpr_of_noNumpy test ht]
          exact ht
        have htf : ifeCleanS cfg
            (.funcDef ("true_fn_" ++ Nat.repr st2.counter) [] [] b2) = true := by
          simp [ifeCleanS, noNumpyEList, ihb.1]
        have hff : ifeCleanS cfg
            (.funcDef ("false_fn_" ++ Nat.repr st2.counter) [] [] o2) = true := by
          simp [ifeCleanS, noNumpyEList, iho.1]
        simp only [ifeVisitStmt, hbe, hoe, hneed, if_true, transform_if_else]
        exact ⟨create_cond_node_clean cfg _ _ _ _ htest2,
          pendingClean_append cfg _ _ _ _ iho.2 htf hff⟩
      · have hneed2 := Bool.not_eq_true _ |>.mp hneed
        simp [ifeVisitStmt, hbe, hoe, hneed2, ifeCleanS,
          ifeVisitExpr_of_noNumpy test ht, ht, ihb.1, iho.1, iho.2]

theorem ifeVisitStmts_output_clean (cfg : Expr → Bool) :
    ∀ (l : List Stmt) (st : IfeState), noNumpySList l = true →
      pendingClean cfg st.newFuncNodes = true →
      ifeCleanList cfg (ifeVisitStmts cfg l st).1 = true ∧
      pendingClean cfg (ifeVisitStmts cfg l st).2.newFuncNodes = true
  | [], st, _, hm => by simpa [ifeVisitStmts, ifeCleanList] using hm
  | s :: rest, st, h, hm => by
      simp only [noNumpySList, Bool.and_eq_true] at h
      rcases hs : ifeVisitStmt cfg s st with ⟨s2, st1⟩
      have ih1 := ifeVisitStmt_output_clean cfg s st h.1 hm
      rw [hs] at ih1
      rcases hr : ifeVisitStmts cfg rest st1 with ⟨rest2, st2⟩
      have ih2 := ifeVisitStmts_output_clean cfg rest st1 h.2 ih1.2
      rw [hr] at ih2
      simp [ifeVisitStmts, hs, hr, ifeCleanList, ih1.1, ih2.1, ih2.2]

end

mutual

theorem sweepStmts_clean (cfg : Expr → Bool) :
    ∀ (fuel : Nat) (m : List (Stmt × Stmt × Stmt)) (l : List Stmt),
      pendingClean cfg m = true → ifeCleanList cfg l = true →
      ifeCleanList cfg (sweepStmts fuel m l).1 = true ∧
      pendingClean cfg (sweepStmts fuel m l).2 = true
  | 0, m, l, hm, hl => by simpa [sweepStmts] using ⟨hl, hm⟩
  | _ + 1, m, [], hm, _ => by simpa [sweepStmts, ifeCleanList] using hm
  | fuel + 1, m, x :: rest, hm, hl => by
      simp only [ifeCleanList, Bool.and_eq_true] at hl
      rcases hrest : sweepStmts fuel m rest with ⟨rest2, m1⟩
      have ih := sweepStmts_clean cfg fuel m rest hm hl.2
      rw [hrest] at ih
      cases hlk : m1.lookup x with
      | some pair =>
          rcases pair with ⟨tf, ff⟩
          have hpair := pendingClean_lookup cfg m1 x tf ff ih.2 hlk
          have hm2 := pendingClean_eraseP cfg (fun e => e.1 == x) m1 ih.2
          rcases hffs : sweepInto fuel (m1.eraseP (fun e => e.1 == x)) ff with ⟨ff2, m3⟩
          have ihff := sweepInto_clean cfg fuel (m1.eraseP (fun e => e.1 == x)) ff hm2 hpair.2
          rw [hffs] at ihff
          rcases htfs : sweepInto fuel m3 tf with ⟨tf2, m4⟩
          have ihtf := sweepInto_clean cfg fuel m3 tf ihff.2 hpair.1
          rw [htfs] at ihtf
          simp [sweepStmts, hrest, hlk, hffs, htfs, ifeCleanList, ihtf.1, ihff.1,
            hl.1, ih.1, ihtf.2]
      | none =>
          rcases hxs : sweepInto fuel m1 x with ⟨x2, m2⟩
          have ihx := sweepInto_clean cfg fuel m1 x ih.2 hl.1
          rw [hxs] at ihx
          simp [sweepStmts, hrest, hlk, hxs, ifeCleanList, ihx.1, ih.1, ihx.2]

theorem sweepInto_clean (cfg : Expr → Bool) :
    ∀ (fuel : Nat) (m : List (Stmt × Stmt × Stmt)) (s : Stmt),
      pendingClean cfg m = true → ifeCleanS cfg s = true →
      ifeCleanS cfg (sweepInto fuel m s).1 = true ∧
      pendingClean cfg (sweepInto fuel m s).2 = true
  | 0, m, s, hm, hs => by simpa [sweepInto] using ⟨hs, hm⟩
  | fuel + 1, m, .funcDef n a d b, hm, hs => by
      simp only [ifeCleanS, Bool.and_eq_true] at hs
      rcases hbs : sweepStmts fuel m b with ⟨b2, m2⟩
      have ih := sweepStmts_clean cfg fuel m b hm hs.2
      rw [hbs] at ih
      simp [sweepInto, hbs, ifeCleanS, hs.1, ih.1, ih.2]
  | fuel + 1, m, .ifStmt t b o, hm, hs => by
      simp only [ifeCleanS, Bool.and_eq_true] at hs
      rcases hbs : sweepStmts fuel m b with ⟨b2, m2⟩
      have ih := sweepStmts_clean cfg fuel m b hm hs.1.2
      rw [hbs] at ih
      simp [sweepInto, hbs, ifeCleanS, hs.1.1.1, hs.1.1.2, hs.2, ih.1, ih.2]
  | _ + 1, m, .assign t v, hm, hs => by simpa [sweepInto] using ⟨hs, hm⟩
  | _ + 1, m, .exprStmt v, hm, hs => by simpa [sweepInto] using ⟨hs, hm⟩
  | _ + 1, m, .ret v, hm, hs => by simpa [sweepInto] using ⟨hs, hm⟩
  | _ + 1, m, .pass, hm, hs => by simpa [sweepInto] using ⟨hs, hm⟩

end

mutual

theorem sweepStmts_nil_map : ∀ (fuel : Nat) (l : List Stmt),
    sweepStmts fuel [] l = (l, [])
  | 0, l => rfl
  | _ + 1, [] => rfl
  | fuel + 1, x :: rest => by
      simp [sweepStmts, sweepStmts_nil_map fuel rest, List.lookup,
        sweepInto_nil_map fuel x]

theorem sweepInto_nil_map : ∀ (fuel : Nat) (s : Stmt),
    sweepInto fuel [] s = (s, [])
  | 0, s => rfl
  | fuel + 1, .funcDef n a d b => by
      simp [sweepInto, sweepStmts_nil_map fuel b]
  | fuel + 1, .ifStmt t b o => by
      simp [sweepInto, sweepStmts_nil_map fuel b]
  | _ + 1, .assign t v => rfl
  | _ + 1, .exprStmt v => rfl
  | _ + 1, .ret v => rfl
  | _ + 1, .pass => rfl

end

theorem ifeTransform_of_clean (cfg : Expr → Bool) (l : List Stmt)
    (h : ifeCleanList cfg l = true) : ifeTransform cfg l = (l, []) := by
  simp [ifeTransform, ifeVisitStmts_of_clean cfg l ⟨0, []⟩ h, sweepStmts_nil_map]

theorem ifeTransform_output_clean (cfg : Expr → Bool) (prog : List Stmt)
    (h : noNumpySList prog = true) :
    ifeCleanList cfg (ifeTransform cfg prog).1 = true := by
  rcases hv : ifeVisitStmts cfg prog ⟨0, []⟩ with ⟨prog2, st⟩
  have ih := ifeVisitStmts_output_clean cfg prog ⟨0, []⟩ h (by simp [pendingClean])
  rw [hv] at ih
  rcases hs : sweepStmts (stmtsSize prog2 + pendingSize st.newFuncNodes + 1)
      st.newFuncNodes prog2 with ⟨prog3, m2⟩
  have hsw := sweepStmts_clean cfg (stmtsSize prog2 + pendingSize st.newFuncNodes + 1)
    st.newFuncNodes prog2 ih.2 ih.1
  rw [hs] at hsw
  simp [ifeTransform, hv, hs, hsw.1]

/-- C3, counterexample: a chained numpy accessor call shows the full pass
sequence is not idempotent. The control-flow pass removes one accessor layer
per run (its `visit_Call` returns the receiver unvisited), so the second run
still changes the tree structurally. -/
theorem second_run_changes_numpy_chain :
    transfer_from_node_type (⟨[], fun _ => none⟩ : ApiEnv) (fun _ => false)
        [.funcDef "f" ["t"] []
          [.assign (.name "a")
            (.call (.attribute (.call (.attribute (.name "t") "numpy") [] []) "numpy")
              [] [])]] =
      some [.funcDef "f" ["t"] []
        [.assign (.name "a") (.call (.attribute (.name "t") "numpy") [] [])]] ∧
    transfer_from_node_type (⟨[], fun _ => none⟩ : ApiEnv) (fun _ => false)
        [.funcDef "f" ["t"] []
          [.assign (.name "a") (.call (.attribute (.name "t") "numpy") [] [])]] =
      some [.funcDef "f" ["t"] [] [.assign (.name "a") (.name "t")]] ∧
    ([Stmt.funcDef "f" ["t"] []
        [.assign (.name "a") (.call (.attribute (.name "t") "numpy") [] [])]] ≠
      [Stmt.funcDef "f" ["t"] [] [.assign (.name "a") (.name "t")]]) := by
  refine ⟨by decide, by decide, by decide⟩

/-- C3, amended: the full pass sequence is not idempotent in general (chained
numpy accessor calls are simplified once per run), but a second run produces
no further structural change when the input contains no numpy accessor call
and the generic and API passes leave both the input and the control-flow
output unchanged: then the only pass that could still act, the control-flow
pass, is a fixed point on its own output — in particular no branch-selection
call is duplicated and no shape accessor is wrapped twice. -/
theorem pipeline_second_run_fixed_point (env : ApiEnv) (cfg : Expr → Bool)
    (prog : List Stmt)
    (hnn : noNumpySList prog = true)
    (hgen : genericVisitStmts prog = some prog)
    (hapi : ∃ st, apiVisitStmts env prog initApiState = some (prog, st))
    (hgen2 : genericVisitStmts (ifeTransform cfg prog).1 =
      some (ifeTransform cfg prog).1)
    (hapi2 : ∃ st, apiVisitStmts env (ifeTransform cfg prog).1 initApiState =
      some ((ifeTransform cfg prog).1, st)) :
    transfer_from_node_type env cfg prog = some (ifeTransform cfg prog).1 ∧
    transfer_from_node_type env cfg (ifeTransform cfg prog).1 =
      some (ifeTransform cfg prog).1 := by
  obtain ⟨st1, h1⟩ := hapi
  obtain ⟨st2, h2⟩ := hapi2
  constructor
  · simp [transfer_from_node_type, hgen, h1, loop_transformer_transform]
  · have hclean := ifeTransform_output_clean cfg prog hnn
    have hid := ifeTransform_of_clean cfg (ifeTransform cfg prog).1 hclean
    simp [transfer_from_node_type, hgen2, h2, loop_transformer_transform, hid]

/-- C3, witness for the amended idempotence theorem at a concrete program. -/
theorem pipeline_second_run_fixed_point_witness :
    transfer_from_node_type (⟨[], fun _ => none⟩ : ApiEnv) (fun _ => false)
        [.funcDef "f" ["x"] [] [.assign (.name "y") (.num 1)]] =
      some (ifeTransform (fun _ => false)
        [.funcDef "f" ["x"] [] [.assign (.name "y") (.num 1)]]).1 ∧
    transfer_from_node_type (⟨[], fun _ => none⟩ : ApiEnv) (fun _ => false)
        (ifeTransform (fun _ => false)
          [.funcDef "f" ["x"] [] [.assign (.name "y") (.num 1)]]).1 =
      some (ifeTransform (fun _ => false)
        [.funcDef "f" ["x"] [] [.assign (.name "y") (.num 1)]]).1 :=
  pipeline_second_run_fixed_point (⟨[], fun _ => none⟩ : ApiEnv) (fun _ => false)
    [.funcDef "f" ["x"] [] [.assign (.name "y") (.num 1)]]
    (by decide) (by decide) ⟨initApiState, by decide⟩ (by decide)
    ⟨initApiState, by decide⟩
